import Mathlib

/-!
Verification of the build execution controller and BOSS-to-OBF converter of
the obpcreator repository.  The controller is the Lua program embedded as
LUA_SCRIPT in src/obpcreator/obf/cli.py; the converter is the Python
function convert in the same file.  Every definition below is a shallow
embedding of the corresponding source code.  Wall-clock time is modelled in
half-second ticks (the source uses a 0.5 second poll interval in one place),
so a source timeout of N seconds appears as 2 * N ticks; sensor readings are
modelled as integers.
-/

namespace ObpCreator

/-- Exposure pattern: a machine path file reference together with a
repetition count (source: the Lua tables with fields file and repetitions). -/
structure Pattern where
  file : String
  repetitions : Nat
deriving DecidableEq, Repr

/-- One layer of the build plan, as read by the Lua script from
buildInfo.json: the fields jumpSafe, spatterSafe and heatBalance may be
absent (nil in Lua), the melt list is always read. -/
structure Layer where
  jumpSafe : Option (List Pattern)
  spatterSafe : Option (List Pattern)
  melt : List Pattern
  heatBalance : Option (List Pattern)
deriving DecidableEq, Repr

/-- The four pattern groups built freshly for one exposure attempt
(source: LUA_SCRIPT lines 148-206 of src/obpcreator/obf/cli.py).
jsReps is the value read from the PreHeatRepetitions parameter topic,
hbReps the value read from the PostHeatRepetitions parameter topic.
The groups are returned in submission order:
jumpSafe, spatterSafe, melt, heatBalance. -/
def buildAttemptPatterns (layer : Layer) (jsReps hbReps : Nat) :
    List Pattern × List Pattern × List Pattern × List Pattern :=
  let jumpSafePatterns : List Pattern :=
    match layer.jumpSafe with
    | none => []
    | some pats => pats.map fun obp =>
        { file := obp.file, repetitions := jsReps + obp.repetitions }
  let spatterSafePatterns : List Pattern := []
  let meltFromSpatterBranch : List Pattern :=
    match layer.spatterSafe with
    | none => []
    | some _ => layer.melt.map fun obp =>
        { file := obp.file, repetitions := obp.repetitions }
  let meltPatterns : List Pattern :=
    meltFromSpatterBranch ++ layer.melt.map fun obp =>
      { file := obp.file, repetitions := obp.repetitions }
  let heatBalancePatterns : List Pattern :=
    match layer.heatBalance with
    | none => []
    | some pats => pats.map fun obp =>
        { file := obp.file, repetitions := obp.repetitions + hbReps }
  (jumpSafePatterns, spatterSafePatterns, meltPatterns, heatBalancePatterns)

/-- Polling loop of the Lua wait function (source: LUA_SCRIPT lines 20-33).
The predicate is modelled as a function of the current time.  The loop body
evaluates the predicate, and if it is false sleeps for the interval and then
returns false when the deadline has been reached, otherwise re-evaluates.
The result records the boolean outcome, the time at which the function
returns, and the list of times at which the predicate was evaluated; none
models running out of fuel (the Lua loop does not terminate when the
interval is zero and the predicate stays false). -/
def waitRun (pred : Nat → Bool) (interval deadline : Nat) :
    Nat → Nat → Option (Bool × Nat × List Nat)
  | 0, _ => none
  | Nat.succ fuel, t =>
    if pred t then some (true, t, [t])
    else if deadline ≤ t + interval then some (false, t + interval, [t])
    else
      match waitRun pred interval deadline fuel (t + interval) with
      | none => none
      | some (b, tf, evs) => some (b, tf, t :: evs)

/-- The Lua wait function called at time t0: the interval defaults to 1 when
no settings table (or no interval field) is given, and the deadline is the
call time plus the timeout.  Fuel timeout + 1 suffices for every interval of
at least one time unit. -/
def waitFn (pred : Nat → Bool) (timeout : Nat) (settings : Option Nat)
    (t0 : Nat) : Option (Bool × Nat × List Nat) :=
  let interval := match settings with | none => 1 | some i => i
  waitRun pred interval (t0 + timeout) (timeout + 1) t0

/-- A BOSS build file entry: the Python convert function accepts either a
single file name or a list of file names per entry of build.build.files
(source: cli.py line 372). -/
inductive BossEntry where
  | single (f : String)
  | multi (fs : List String)
deriving DecidableEq, Repr

/-- Normalisation performed by convert: a single file becomes a one-element
list (source: cli.py line 372). -/
def bossEntryFiles : BossEntry → List String
  | .single f => [f]
  | .multi fs => fs

/-- Last nonempty path component, modelling pathlib.PurePath(file).name for
posix paths (source: cli.py lines 345, 350, 381). -/
def pathName (f : String) : String :=
  ((f.splitOn "/").filter (fun c => c ≠ "")).getLastD ""

/-- The jump_safe_dict built by convert from the BOSS preheat section
(source: cli.py lines 344-347). -/
def jumpSafeDict (preheatFile : String) (preheatReps : Nat) : Pattern :=
  { file := "obp/" ++ pathName preheatFile, repetitions := preheatReps }

/-- The heat_balance_dict built by convert from the BOSS postheat section
(source: cli.py lines 349-352). -/
def heatBalanceDict (postheatFile : String) (postheatReps : Nat) : Pattern :=
  { file := "obp/" ++ pathName postheatFile, repetitions := postheatReps }

/-- The layer dict appended by convert for one BOSS entry (source: cli.py
lines 372-386): jumpSafe is the single jump_safe_dict, melt holds one
pattern with repetitions 1 per file of the entry, heatBalance is the single
heat_balance_dict, and no spatterSafe key is written. -/
def mkConvertLayer (jsd hbd : Pattern) (entry : BossEntry) : Layer :=
  { jumpSafe := some [jsd]
    spatterSafe := none
    melt := (bossEntryFiles entry).map fun f =>
      { file := "obp/" ++ pathName f, repetitions := 1 }
    heatBalance := some [hbd] }

/-- Inner for loop of the layer construction in convert (source: cli.py
lines 368-386): iterates the BOSS entries in order, stopping as soon as the
accumulated layer list has reached the requested count. -/
def convertInnerFor (entries : List BossEntry) (target : Nat)
    (jsd hbd : Pattern) (acc : List Layer) : List Layer :=
  match entries with
  | [] => acc
  | e :: rest =>
    if target ≤ acc.length then acc
    else convertInnerFor rest target jsd hbd (acc ++ [mkConvertLayer jsd hbd e])

/-- Outer while loop of the layer construction in convert (source: cli.py
line 367): repeats the inner for loop while fewer than the requested number
of layers have been built; none models running out of fuel, which is how
the nonterminating execution on an empty file list shows up in the model. -/
def convertLayerLoop (fuel : Nat) (entries : List BossEntry) (target : Nat)
    (jsd hbd : Pattern) (acc : List Layer) : Option (List Layer) :=
  match fuel with
  | 0 => none
  | Nat.succ fuel =>
    if acc.length < target then
      convertLayerLoop fuel entries target jsd hbd
        (convertInnerFor entries target jsd hbd acc)
    else some acc

/-- Observable events of one controller run.  print models system.print,
publish models the mqtt activity publish performed by the Lua log helper,
clearQueue models a call to machine.clear_exposure_queue, submitExposure
models machine.start_process_step_exposures and records the retry counter
value of the attempt together with the four submitted pattern groups,
restartArcEv records the fresh powder flag passed to
machine.restart_after_arc_trip, and raiseAbort models the Lua error call. -/
inductive Ev where
  | print (msg : String)
  | publish (msg : String)
  | publishProgress (total cur : Nat)
  | subscribeEv (topic : String)
  | publishParam (name : String) (v : Nat)
  | startExposure (file : String) (reps : Nat)
  | sleepEv (dt : Nat)
  | clearQueue
  | recoatEv (ok : Bool)
  | restartHVEv (ok : Bool)
  | submitExposure (retry : Nat) (js ss melt hb : List Pattern)
  | restartArcEv (npl : Option Bool) (ok : Bool)
  | beamOffEv
  | powerOffEv
  | raiseAbort (msg : String)
deriving DecidableEq, Repr

/-- Scripted machine and parameter-channel responses, one list per external
call, consumed in call order.  This is the environment of one run: the
controller is deterministic given these responses. -/
structure Script where
  beamIsOn : List Bool
  restartHV : List Bool
  hvCurrent : List (Option Int)
  temperature : List (Option Int)
  clearQueue : List Bool
  recoat : List Bool
  exposure : List Nat
  restartArc : List Bool
  jsReps : List Nat
  hbReps : List Nat
deriving DecidableEq, Repr

/-- Interpreter state: remaining scripted responses, the clock in
half-second ticks, and the Lua global variable newPowderLayer, which starts
out nil. -/
structure St where
  sc : Script
  time : Nat
  npl : Option Bool
deriving DecidableEq, Repr

/-- Result of a controller computation: normal value, build abort carrying
the message of the Lua error call, or stuck, which models running out of
scripted responses or fuel. -/
inductive Res (α : Type) where
  | ok (a : α)
  | abort (msg : String)
  | stuck
deriving DecidableEq, Repr

/-- Trace of observable events, in emission order. -/
abbrev Trace := List Ev

/-- Controller computations: state transformers producing a trace, a result
and a final state.  An abort result short-circuits the rest of the
computation, exactly like the uncaught Lua error call. -/
def M (α : Type) : Type := St → Trace × Res α × St

instance : Monad M where
  pure a := fun s => ([], Res.ok a, s)
  bind x f := fun s =>
    match x s with
    | (t, Res.ok a, s1) =>
      match f a s1 with
      | (t2, r, s2) => (t ++ t2, r, s2)
    | (t, Res.abort m, s1) => (t, Res.abort m, s1)
    | (t, Res.stuck, s1) => (t, Res.stuck, s1)

/-- Emit one observable event. -/
def emit (e : Ev) : M Unit := fun s => ([e], Res.ok (), s)

/-- Read the clock, modelling os.time(). -/
def osTime : M Nat := fun s => ([], Res.ok s.time, s)

/-- Suspend for dt ticks, modelling system.sleep. -/
def sleepM (dt : Nat) : M Unit := fun s =>
  ([Ev.sleepEv dt], Res.ok (), { s with time := s.time + dt })

/-- Read the Lua global newPowderLayer. -/
def getNpl : M (Option Bool) := fun s => ([], Res.ok s.npl, s)

/-- Assign the Lua global newPowderLayer. -/
def setNpl (b : Bool) : M Unit := fun s =>
  ([], Res.ok (), { s with npl := some b })

/-- Pop the next scripted beam_is_on response. -/
def popBeamIsOn : M Bool := fun s =>
  match s.sc.beamIsOn with
  | [] => ([], Res.stuck, s)
  | b :: rest => ([], Res.ok b, { s with sc := { s.sc with beamIsOn := rest } })

/-- Pop the next scripted restartHV response. -/
def popRestartHV : M Bool := fun s =>
  match s.sc.restartHV with
  | [] => ([], Res.stuck, s)
  | b :: rest => ([], Res.ok b, { s with sc := { s.sc with restartHV := rest } })

/-- Pop the next scripted get_hv_current reading. -/
def popHvCurrent : M (Option Int) := fun s =>
  match s.sc.hvCurrent with
  | [] => ([], Res.stuck, s)
  | b :: rest => ([], Res.ok b, { s with sc := { s.sc with hvCurrent := rest } })

/-- Pop the next scripted get_temperature reading. -/
def popTemperature : M (Option Int) := fun s =>
  match s.sc.temperature with
  | [] => ([], Res.stuck, s)
  | b :: rest =>
    ([], Res.ok b, { s with sc := { s.sc with temperature := rest } })

/-- Pop the next scripted clear_exposure_queue response. -/
def popClearQueue : M Bool := fun s =>
  match s.sc.clearQueue with
  | [] => ([], Res.stuck, s)
  | b :: rest =>
    ([], Res.ok b, { s with sc := { s.sc with clearQueue := rest } })

/-- Pop the next scripted recoat_cycle response. -/
def popRecoat : M Bool := fun s =>
  match s.sc.recoat with
  | [] => ([], Res.stuck, s)
  | b :: rest => ([], Res.ok b, { s with sc := { s.sc with recoat := rest } })

/-- Pop the next scripted start_process_step_exposures result code. -/
def popExposure : M Nat := fun s =>
  match s.sc.exposure with
  | [] => ([], Res.stuck, s)
  | b :: rest => ([], Res.ok b, { s with sc := { s.sc with exposure := rest } })

/-- Pop the next scripted restart_after_arc_trip response. -/
def popRestartArc : M Bool := fun s =>
  match s.sc.restartArc with
  | [] => ([], Res.stuck, s)
  | b :: rest =>
    ([], Res.ok b, { s with sc := { s.sc with restartArc := rest } })

/-- Pop the next value of the PreHeatRepetitions parameter topic. -/
def popJsReps : M Nat := fun s =>
  match s.sc.jsReps with
  | [] => ([], Res.stuck, s)
  | b :: rest => ([], Res.ok b, { s with sc := { s.sc with jsReps := rest } })

/-- Pop the next value of the PostHeatRepetitions parameter topic. -/
def popHbReps : M Nat := fun s =>
  match s.sc.hbReps with
  | [] => ([], Res.stuck, s)
  | b :: rest => ([], Res.ok b, { s with sc := { s.sc with hbReps := rest } })

/-- Raise a Lua error: emits the abort event and short-circuits the rest of
the run. -/
def luaError (msg : String) : M Unit := fun s =>
  ([Ev.raiseAbort msg], Res.abort msg, s)

/-- The Lua log helper (source: LUA_SCRIPT lines 49-52): system.print
followed by an mqtt activity publish of the same message. -/
def logM (msg : String) : M Unit := do
  emit (Ev.print msg)
  emit (Ev.publish msg)

/-- machine.clear_exposure_queue: consumes a scripted response and emits the
clearQueue event. -/
def clear_exposure_queue : M Bool := do
  let b <- popClearQueue
  emit Ev.clearQueue
  pure b

/-- machine.restartHV: consumes a scripted response and emits an event. -/
def restartHVM : M Bool := do
  let b <- popRestartHV
  emit (Ev.restartHVEv b)
  pure b

/-- machine.recoat_cycle: consumes a scripted response and emits an event. -/
def recoat_cycle : M Bool := do
  let b <- popRecoat
  emit (Ev.recoatEv b)
  pure b

/-- machine.restart_after_arc_trip, called with the current value of the
newPowderLayer global: consumes a scripted response and records the passed
fresh powder flag in the trace. -/
def restart_after_arc_trip (npl : Option Bool) : M Bool := do
  let b <- popRestartArc
  emit (Ev.restartArcEv npl b)
  pure b

/-- The Lua logfatal helper (source: LUA_SCRIPT lines 54-59): prefixes the
message, logs it, clears the exposure queue best-effort, and raises. -/
def logfatal (msg : String) : M Unit := do
  let m := "Build Error: " ++ msg
  logM m
  let _ <- clear_exposure_queue
  luaError m

/-- The Lua pattern if not ok then logfatal(msg) end, used for every fatal
condition check of the controller. -/
def fatalUnless (ok : Bool) (msg : String) : M Unit :=
  if ok then pure () else logfatal msg

/-- The Lua pattern if not machine.beam_is_on() and not machine.restartHV(60)
then logfatal(msg) end (source: LUA_SCRIPT lines 99-101 and 107-109): the
restart is attempted only when the beam is off, and its failure is fatal. -/
def ensureBeam (msg : String) : M Unit := do
  let isOn <- popBeamIsOn
  if isOn then pure ()
  else do
    let r <- restartHVM
    fatalUnless r msg

/-- Effectful variant of the wait polling loop used inside the controller
(source: LUA_SCRIPT lines 20-33): the predicate may consume scripted
responses and may itself abort the build. -/
def waitLoop (pred : M Bool) (interval deadline : Nat) (fuel : Nat) :
    M Bool :=
  Nat.rec (motive := fun _ => M Bool)
    (fun s => ([], Res.stuck, s))
    (fun _ ih => do
      let b <- pred
      if b then pure true
      else do
        sleepM interval
        let t <- osTime
        if deadline ≤ t then pure false
        else ih)
    fuel

/-- Unfolding of the polling loop at fuel zero. -/
theorem waitLoop_zero (pred : M Bool) (interval deadline : Nat) :
    waitLoop pred interval deadline 0 = fun s => ([], Res.stuck, s) := rfl

/-- Unfolding of the polling loop at successor fuel. -/
theorem waitLoop_succ (pred : M Bool) (interval deadline fuel : Nat) :
    waitLoop pred interval deadline (fuel + 1) = (do
      let b <- pred
      if b then pure true
      else do
        sleepM interval
        let t <- osTime
        if deadline ≤ t then pure false
        else waitLoop pred interval deadline fuel) := rfl

/-- The Lua wait function inside the controller: computes the deadline from
the current time and runs the polling loop. -/
def waitM (fuel : Nat) (pred : M Bool) (timeout interval : Nat) : M Bool := do
  let t0 <- osTime
  waitLoop pred interval (t0 + timeout) fuel

/-- Message of the beam power low timeout abort (source: LUA_SCRIPT
line 41); this is the one fatal path that raises through a plain error call
rather than through logfatal. -/
def beamLowMsg : String := "Build Aborted: BeamPowerLow condition timed out"

/-- The Lua wait_for_beam_power_low function (source: LUA_SCRIPT lines
35-43): polls the high voltage current for at most 30 seconds with the
default interval, and on timeout clears the queue and raises without any
telemetry publish. -/
def wait_for_beam_power_low (fuel : Nat) : M Unit := do
  let ok <- waitM fuel
    (do
      let hv <- popHvCurrent
      pure (match hv with
            | none => false
            | some c => decide (c ≤ 1)))
    60 2
  if ok then pure ()
  else do
    let _ <- clear_exposure_queue
    luaError beamLowMsg

/-- Whether the result code of one exposure submission marks the layer as
done (source: LUA_SCRIPT lines 207-225): code 0 is success, code 4 is the
heat balance arc trip that is nevertheless treated as layer done; codes 1,
2, 3, and any code outside the handled range leave the layer not done. -/
def layerDoneOf (err : Nat) : Bool :=
  match err with
  | 0 => true
  | 4 => true
  | _ => false

/-- The activity message logged before one exposure submission (source:
LUA_SCRIPT line 204). -/
def exposeMsg (index retry : Nat) : String :=
  "Exposing OBP files of layer " ++ toString index ++ "." ++
    (if 0 < retry then " Retry " ++ toString retry else "")

/-- Message of the retry bound abort (before the logfatal prefix). -/
def retryMsg : String := "Maximum retry count exceeded!"

/-- Full abort message of the retry bound abort as raised by logfatal. -/
def retryFullMsg : String := "Build Error: " ++ retryMsg

/-- Per-code classification branches of one exposure attempt (source:
LUA_SCRIPT lines 207-225): each arc trip code logs its message and assigns
the newPowderLayer global, which becomes true only for the melt trip code
3; success and unhandled codes assign nothing. -/
def classifyStep (err : Nat) : M Unit :=
  match err with
  | 1 => do
    logM "Arc trip during Jump Safe exposure"
    setNpl false
  | 2 => do
    logM "Arc trip during Spatter Safe exposure"
    setNpl false
  | 3 => do
    logM "Arc trip during Melt exposure"
    setNpl true
  | 4 => do
    logM "Arc trip during Heat Balance exposure"
    setNpl false
  | _ => pure ()

/-- Fault recovery step of one exposure attempt (source: LUA_SCRIPT lines
226-231): on any nonzero result code, clear the exposure queue best-effort
and run arc trip recovery with the newPowderLayer global; failure to
recover is fatal. -/
def recoverStep (err : Nat) : M Unit :=
  if err ≠ 0 then do
    let _ <- clear_exposure_queue
    let npl <- getNpl
    let r <- restart_after_arc_trip npl
    fatalUnless r "Unable to recover from arc trip"
  else pure ()

/-- Retry bound check of one exposure attempt (source: LUA_SCRIPT lines
235-237): once the retry counter exceeds maxRetryCount = 10 the build is
aborted fatally. -/
def checkRetry (retry2 : Nat) : M Unit :=
  if 10 < retry2 then logfatal retryMsg else pure ()

/-- Parameter reads, pattern construction and exposure submission of one
attempt (source: LUA_SCRIPT lines 148-206): reads both runtime parameters
freshly, builds the four pattern groups and submits them, returning the
machine result code. -/
def submitStep (index : Nat) (layer : Layer) (retry : Nat) : M Nat := do
  let js <- popJsReps
  emit (Ev.print ("Jump safe reps: " ++ toString js))
  let hb <- popHbReps
  emit (Ev.print ("Heat balance reps: " ++ toString hb))
  let pats := buildAttemptPatterns layer js hb
  logM (exposeMsg index retry)
  let err <- popExposure
  emit (Ev.submitExposure retry pats.1 pats.2.1 pats.2.2.1 pats.2.2.2)
  pure err

/-- Remainder of one exposure attempt after the submission (source:
LUA_SCRIPT lines 207-237): classification, recovery, retry counting and the
retry bound check; returns whether the layer is done. -/
def layerAttempt (index : Nat) (layer : Layer) (retry : Nat) : M Bool := do
  let err <- submitStep index layer retry
  classifyStep err
  recoverStep err
  let done := layerDoneOf err
  let retry2 := if done then retry else retry + 1
  checkRetry retry2
  pure done

/-- The per-layer retry while loop (source: LUA_SCRIPT lines 146-238):
repeats exposure attempts until one marks the layer done; the retry counter
is threaded through the recursion and incremented exactly on attempts that
leave the layer not done. -/
def layerLoop (index : Nat) (layer : Layer) (fuel : Nat) : Nat → M Unit :=
  Nat.rec (motive := fun _ => Nat → M Unit)
    (fun _ s => ([], Res.stuck, s))
    (fun _ ih retry => do
      let done <- layerAttempt index layer retry
      if done then pure () else ih (retry + 1))
    fuel

/-- Unfolding of the retry loop at fuel zero. -/
theorem layerLoop_zero (index : Nat) (layer : Layer) (retry : Nat) :
    layerLoop index layer 0 retry = fun s => ([], Res.stuck, s) := rfl

/-- Unfolding of the retry loop at successor fuel. -/
theorem layerLoop_succ (index : Nat) (layer : Layer) (fuel retry : Nat) :
    layerLoop index layer (fuel + 1) retry = (do
      let done <- layerAttempt index layer retry
      if done then pure ()
      else layerLoop index layer fuel (retry + 1)) := rfl

/-- Beam check after recoating (source: LUA_SCRIPT lines 136-141): when
the beam dropped during recoating, log and attempt a restart, whose failure
is fatal. -/
def beamCheckAfterRecoat : M Unit := do
  let isOn <- popBeamIsOn
  if isOn then pure ()
  else do
    logM "Beam was off after recoating. Turning it on!"
    let r <- restartHVM
    fatalUnless r "Timeout waiting for beam on"

/-- The body run for one layer of the build (source: LUA_SCRIPT lines
121-238): progress publish, wait for beam power low, recoat cycle with
fatal failure, beam restart if the beam dropped during recoating, then the
exposure retry loop starting from retry counter 0. -/
def runOneLayer (fuel : Nat) (numLayers index : Nat) (layer : Layer) :
    M Unit := do
  emit (Ev.print ("Starting to process layer " ++ toString index))
  emit (Ev.publishProgress numLayers index)
  logM "Waiting for beam power low"
  wait_for_beam_power_low fuel
  logM ("Recoat cycle. Layer " ++ toString index)
  let rc <- recoat_cycle
  fatalUnless rc "Unable to complete Layerfeed."
  beamCheckAfterRecoat
  layerLoop index layer fuel 0

/-- The layer iteration of the controller (source: LUA_SCRIPT lines
121-239): processes the remaining layers in plan order with one-based
indices. -/
def runLayers (fuel : Nat) (numLayers : Nat) (layers : List Layer) :
    Nat → M Unit :=
  List.rec (motive := fun _ => Nat → M Unit)
    (fun _ => pure ())
    (fun layer _rest ih index => do
      runOneLayer fuel numLayers index layer
      ih (index + 1))
    layers

/-- Unfolding of the layer iteration on the empty list. -/
theorem runLayers_nil (fuel numLayers index : Nat) :
    runLayers fuel numLayers [] index = pure () := rfl

/-- Unfolding of the layer iteration on a cons. -/
theorem runLayers_cons (fuel numLayers index : Nat) (layer : Layer)
    (rest : List Layer) :
    runLayers fuel numLayers (layer :: rest) index = (do
      runOneLayer fuel numLayers index layer
      runLayers fuel numLayers rest (index + 1)) := rfl

/-- Start heat section of the build plan (source: buildInfo startHeat as
read by LUA_SCRIPT lines 61-64); targetTemperature is an integer sensor
value and timeout is in seconds. -/
structure StartHeat where
  file : String
  targetTemperature : Int
  timeout : Nat
deriving DecidableEq, Repr

/-- The build plan as read by the controller from buildInfo.json. -/
structure BuildInfo where
  startHeat : StartHeat
  layers : List Layer
deriving DecidableEq, Repr

/-- Predicate polled during start heat (source: LUA_SCRIPT lines 106-112):
restarts the beam as a side effect when it has dropped, aborting the build
when that fails, then compares the temperature reading with the target;
a nil reading counts as false. -/
def preheatPred (target : Int) : M Bool := do
  ensureBeam "Failed to start beam"
  let temp <- popTemperature
  pure (match temp with
        | none => false
        | some t => decide (target ≤ t))

/-- The whole controller run (source: LUA_SCRIPT lines 61-250): startup
publishes, beam ignition, start heat with temperature polling, queue clear,
the layer iteration, and teardown.  The clock runs in half-second ticks, so
the 30 second beam power low timeout is 60 ticks, the one second default
poll interval is 2 ticks and the half second start heat poll interval is
1 tick. -/
def runBuild (fuel : Nat) (info : BuildInfo) : M Unit := do
  let numLayers := info.layers.length
  emit (Ev.publishProgress numLayers 0)
  emit (Ev.subscribeEv "PreHeatRepetitions")
  emit (Ev.subscribeEv "PostHeatRepetitions")
  emit (Ev.publishParam "PreHeatRepetitions" 0)
  emit (Ev.publishParam "PostHeatRepetitions" 0)
  logM "Init"
  logM "Turning on the beam"
  ensureBeam "Failed to start beam"
  logM "The beam is active"
  logM ("Start heating to target temperature: " ++
    toString info.startHeat.targetTemperature)
  emit (Ev.startExposure info.startHeat.file 4294967295)
  emit (Ev.print ("Waiting for " ++ toString info.startHeat.timeout ++
    " seconds or until target temperature is reached."))
  let ok <- waitM fuel (preheatPred info.startHeat.targetTemperature)
    (2 * info.startHeat.timeout) 1
  fatalUnless ok "Failed to reach target temperature"
  let c <- clear_exposure_queue
  fatalUnless c "Failed to clear exposure queue"
  emit (Ev.print ("OBF has " ++ toString numLayers ++ " layers."))
  runLayers fuel numLayers info.layers 1
  let _ <- clear_exposure_queue
  logM "Waiting for beam power low"
  wait_for_beam_power_low fuel
  logM "Turning off the beam"
  emit Ev.beamOffEv
  logM "Turning off the PSU"
  emit Ev.powerOffEv
  logM "Build finished"

/-- Helper: a false result of the polling loop is returned at or after the
deadline, the first predicate evaluation happens at the call time, and every
later evaluation happens strictly before the deadline. -/
theorem waitRun_false_spec (pred : Nat → Bool) (interval deadline : Nat) :
    ∀ (fuel t tf : Nat) (evs : List Nat),
      waitRun pred interval deadline fuel t = some (false, tf, evs) →
      deadline ≤ tf ∧ ∃ rest, evs = t :: rest ∧ ∀ s ∈ rest, s < deadline := by
  intro fuel
  induction fuel with
  | zero => intro t tf evs h; simp [waitRun] at h
  | succ fuel ih =>
    intro t tf evs h
    unfold waitRun at h
    by_cases hp : pred t
    · simp [hp] at h
    · simp [hp] at h
      by_cases hd : deadline ≤ t + interval
      · simp [hd] at h
        obtain ⟨h1, h2⟩ := h
        exact ⟨h1 ▸ hd, [], h2.symm, by simp⟩
      · simp [hd] at h
        cases hrec : waitRun pred interval deadline fuel (t + interval) with
        | none => rw [hrec] at h; simp at h
        | some v =>
          obtain ⟨b, tf2, evs2⟩ := v
          rw [hrec] at h
          simp at h
          obtain ⟨hb, htf, hevs⟩ := h
          obtain ⟨hle, rest2, hevs2, hrest2⟩ := ih (t + interval) tf2 evs2 (by rw [hrec, hb])
          refine ⟨htf ▸ hle, evs2, hevs.symm, ?_⟩
          intro s hs
          rw [hevs2] at hs
          rcases List.mem_cons.mp hs with h | h
          · omega
          · exact hrest2 s h

/-- Helper: a true result of the polling loop is returned at the first
evaluation time at which the predicate holds. -/
theorem waitRun_true_spec (pred : Nat → Bool) (interval deadline : Nat) :
    ∀ (fuel t tf : Nat) (evs : List Nat),
      waitRun pred interval deadline fuel t = some (true, tf, evs) →
      pred tf = true ∧ ∃ pre, evs = pre ++ [tf] ∧ ∀ s ∈ pre, pred s = false := by
  intro fuel
  induction fuel with
  | zero => intro t tf evs h; simp [waitRun] at h
  | succ fuel ih =>
    intro t tf evs h
    unfold waitRun at h
    by_cases hp : pred t
    · simp [hp] at h
      refine ⟨h.1 ▸ hp, [], ?_, by simp⟩
      simp only [List.nil_append]
      rw [← h.2, h.1]
    · simp [hp] at h
      by_cases hd : deadline ≤ t + interval
      · simp [hd] at h
      · simp [hd] at h
        cases hrec : waitRun pred interval deadline fuel (t + interval) with
        | none => rw [hrec] at h; simp at h
        | some v =>
          obtain ⟨b, tf2, evs2⟩ := v
          rw [hrec] at h
          simp at h
          obtain ⟨hb, htf, hevs⟩ := h
          obtain ⟨hpt, pre2, hevs2, hpre2⟩ := ih (t + interval) tf2 evs2 (by rw [hrec, hb])
          refine ⟨htf ▸ hpt, t :: pre2, by simp [hevs.symm, hevs2, htf], ?_⟩
          intro s hs
          rcases List.mem_cons.mp hs with h | h
          · rw [h]; simpa using hp
          · exact hpre2 s h

/-- C8: the wait primitive evaluates the predicate immediately and returns
true at the call time without sleeping when it already holds; a false
result is returned only once the time since the call has reached the
timeout, and after the initial evaluation the predicate is never evaluated
at or past the deadline; a true result is returned at the first evaluation
time at which the predicate holds; with timeout 5 and the default interval
1, a predicate first true at time 3 gives a true result at time 3 (within
4 seconds of the call), and a never-true predicate gives a false result at
time 5 after evaluations at times 0 to 4 only. -/
theorem wait_spec :
    (∀ (pred : Nat → Bool) (timeout : Nat) (settings : Option Nat) (t0 : Nat),
      pred t0 = true → waitFn pred timeout settings t0 = some (true, t0, [t0])) ∧
    (∀ (pred : Nat → Bool) (timeout : Nat) (settings : Option Nat)
        (t0 tf : Nat) (evs : List Nat),
      waitFn pred timeout settings t0 = some (false, tf, evs) →
      t0 + timeout ≤ tf ∧ ∃ rest, evs = t0 :: rest ∧
        ∀ s ∈ rest, s < t0 + timeout) ∧
    (∀ (pred : Nat → Bool) (timeout : Nat) (settings : Option Nat)
        (t0 tf : Nat) (evs : List Nat),
      waitFn pred timeout settings t0 = some (true, tf, evs) →
      pred tf = true ∧ ∃ pre, evs = pre ++ [tf] ∧ ∀ s ∈ pre, pred s = false) ∧
    (waitFn (fun t => decide (3 ≤ t)) 5 none 0 = some (true, 3, [0, 1, 2, 3]) ∧
      3 ≤ 4) ∧
    (waitFn (fun _ => false) 5 none 0 = some (false, 5, [0, 1, 2, 3, 4])) := by
  refine ⟨?_, ?_, ?_, ⟨by decide, by decide⟩, by decide⟩
  · intro pred timeout settings t0 hp
    unfold waitFn waitRun
    simp [hp]
  · intro pred timeout settings t0 tf evs h
    exact waitRun_false_spec pred _ (t0 + timeout) (timeout + 1) t0 tf evs h
  · intro pred timeout settings t0 tf evs h
    exact waitRun_true_spec pred _ (t0 + timeout) (timeout + 1) t0 tf evs h

/-- Witness for C8 at concrete inputs. -/
theorem wait_spec_witness :
    waitFn (fun _ => true) 5 none 0 = some (true, 0, [0]) ∧
    (0 : Nat) + 5 ≤ 5 := by
  refine ⟨wait_spec.1 (fun _ => true) 5 none 0 rfl, ?_⟩
  exact (wait_spec.2.1 (fun _ => false) 5 none 0 5 [0, 1, 2, 3, 4]
    (by decide)).1

/-- C4: the submitted jumpSafe group holds one pattern per configured
jumpSafe pattern of the layer, whose repetition count is the current
PreHeatRepetitions parameter value plus the own configured repetitions of
the pattern; in particular PreHeatRepetitions 7 and configured repetitions
2 submit 9. -/
theorem jump_safe_additive_spec :
    (∀ (layer : Layer) (jsReps hbReps : Nat) (pats : List Pattern),
      layer.jumpSafe = some pats →
      (buildAttemptPatterns layer jsReps hbReps).1 = pats.map fun obp =>
        { file := obp.file, repetitions := jsReps + obp.repetitions }) ∧
    (∀ (layer : Layer) (hbReps : Nat) (f : String),
      layer.jumpSafe = some [{ file := f, repetitions := 2 }] →
      (buildAttemptPatterns layer 7 hbReps).1.map Pattern.repetitions = [9]) := by
  constructor
  · intro layer jsReps hbReps pats h
    unfold buildAttemptPatterns
    rw [h]
  · intro layer hbReps f h
    unfold buildAttemptPatterns
    rw [h]
    simp

/-- Witness for C4 at concrete inputs. -/
theorem jump_safe_additive_spec_witness :
    (buildAttemptPatterns ⟨some [⟨"a", 2⟩], none, [], none⟩ 7 0).1.map
      Pattern.repetitions = [9] :=
  jump_safe_additive_spec.2 ⟨some [⟨"a", 2⟩], none, [], none⟩ 0 "a" rfl

/-- Counterexample to C5: with PreHeatRepetitions 7 and a jumpSafe pattern
configured with repetitions 2 the submitted repetition count is 9, not the
parameter value 7, so the parameter is not an absolute replacement. -/
theorem preheat_absolute_counterexample :
    (buildAttemptPatterns ⟨some [⟨"a", 2⟩], none, [], none⟩ 7 0).1.map
      Pattern.repetitions ≠ [7] ∧
    (buildAttemptPatterns ⟨some [⟨"a", 2⟩], none, [], none⟩ 7 0).1.map
      Pattern.repetitions = [9] := by
  decide

/-- C5 amended: the PreHeatRepetitions parameter is applied as an additive
offset, not an absolute replacement: every submitted jumpSafe pattern has
repetitions equal to the parameter value plus its own configured
repetitions. -/
theorem preheat_additive_amended :
    ∀ (layer : Layer) (jsReps hbReps : Nat) (pats : List Pattern),
      layer.jumpSafe = some pats →
      (buildAttemptPatterns layer jsReps hbReps).1.map Pattern.repetitions =
        pats.map fun obp => jsReps + obp.repetitions := by
  intro layer jsReps hbReps pats h
  unfold buildAttemptPatterns
  rw [h]
  simp

/-- Witness for the amended C5 at concrete inputs. -/
theorem preheat_additive_amended_witness :
    (buildAttemptPatterns ⟨some [⟨"a", 2⟩], none, [], none⟩ 7 0).1.map
      Pattern.repetitions = [7 + 2] :=
  preheat_additive_amended ⟨some [⟨"a", 2⟩], none, [], none⟩ 7 0 [⟨"a", 2⟩] rfl

/-- C6 at the failing input: a layer configured with a nonempty spatterSafe
list submits an empty spatterSafe group (the source branch reads the melt
list and writes into the melt accumulator instead), and the melt group gets
every melt pattern twice. -/
theorem spatter_safe_dropped :
    (buildAttemptPatterns ⟨none, some [⟨"s", 1⟩], [⟨"m", 2⟩], none⟩ 0 0).2.1 =
      [] ∧
    (buildAttemptPatterns ⟨none, some [⟨"s", 1⟩], [⟨"m", 2⟩], none⟩ 0
      0).2.2.1 = [⟨"m", 2⟩, ⟨"m", 2⟩] := by
  decide

/-- Counterexample to C7: with a spatterSafe list present the submitted
groups differ from the groups of the same layer without one, and the melt
group holds the configured melt pattern twice rather than exactly once, so
the spatterSafe branch is not a no-op. -/
theorem spatter_branch_not_noop_counterexample :
    buildAttemptPatterns ⟨none, some [⟨"s", 1⟩], [⟨"m", 2⟩], none⟩ 0 0 ≠
      buildAttemptPatterns ⟨none, none, [⟨"m", 2⟩], none⟩ 0 0 ∧
    (buildAttemptPatterns ⟨none, some [⟨"s", 1⟩], [⟨"m", 2⟩], none⟩ 0
      0).2.2.1.count ⟨"m", 2⟩ = 2 := by
  decide

/-- C7 amended: the spatterSafe branch never populates the spatterSafe
group, which is always submitted empty; but the branch is not a no-op: when
the layer defines a spatterSafe list the submitted melt group is the
configured melt list twice over, and only without one is it the configured
melt list once. -/
theorem spatter_branch_effect_amended :
    ∀ (layer : Layer) (jsReps hbReps : Nat),
      (buildAttemptPatterns layer jsReps hbReps).2.1 = [] ∧
      (layer.spatterSafe = none →
        (buildAttemptPatterns layer jsReps hbReps).2.2.1 = layer.melt) ∧
      (∀ ss, layer.spatterSafe = some ss →
        (buildAttemptPatterns layer jsReps hbReps).2.2.1 =
          layer.melt ++ layer.melt) := by
  intro layer jsReps hbReps
  have hmap : (layer.melt.map fun obp =>
      ({ file := obp.file, repetitions := obp.repetitions } : Pattern)) =
      layer.melt := by
    simp
  refine ⟨by unfold buildAttemptPatterns; rfl, ?_, ?_⟩
  · intro h
    unfold buildAttemptPatterns
    rw [h]
    simp
  · intro ss h
    unfold buildAttemptPatterns
    rw [h]
    simp

/-- Witness for the amended C7 at concrete inputs. -/
theorem spatter_branch_effect_amended_witness :
    (buildAttemptPatterns ⟨none, some [⟨"s", 1⟩], [⟨"m", 2⟩], none⟩ 0 0).2.1 =
      [] ∧
    (buildAttemptPatterns ⟨none, some [⟨"s", 1⟩], [⟨"m", 2⟩], none⟩ 0
      0).2.2.1 = [⟨"m", 2⟩] ++ [⟨"m", 2⟩] := by
  obtain ⟨h1, _, h3⟩ :=
    spatter_branch_effect_amended ⟨none, some [⟨"s", 1⟩], [⟨"m", 2⟩], none⟩ 0 0
  exact ⟨h1, h3 [⟨"s", 1⟩] rfl⟩

/-- The layer list predicted for the converter: m layers cycling through
the BOSS entries in order. -/
def convertExpected (entries : List BossEntry) (jsd hbd : Pattern)
    (m : Nat) : List Layer :=
  (List.range m).map fun i =>
    mkConvertLayer jsd hbd (entries.getD (i % entries.length)
      (BossEntry.single ""))

/-- Helper: the inner for loop appends one converted layer per entry until
the requested count is reached. -/
theorem convertInnerFor_eq (target : Nat) (jsd hbd : Pattern) :
    ∀ (entries : List BossEntry) (acc : List Layer),
      convertInnerFor entries target jsd hbd acc =
        acc ++ (entries.take (target - acc.length)).map
          (mkConvertLayer jsd hbd) := by
  intro entries
  induction entries with
  | nil => intro acc; simp [convertInnerFor]
  | cons e rest ih =>
    intro acc
    unfold convertInnerFor
    by_cases h : target ≤ acc.length
    · have : target - acc.length = 0 := by omega
      simp [h, this]
    · have hlt : acc.length < target := by omega
      simp only [h, if_false]
      rw [ih]
      have hsub : target - acc.length = (target - (acc.length + 1)) + 1 := by
        omega
      rw [hsub, List.take_succ_cons, List.map_cons]
      simp

/-- Helper: appending up to one full round of entries to a cyclic prefix
whose length is a multiple of the entry count gives a longer cyclic
prefix. -/
theorem convertExpected_append (entries : List BossEntry) (jsd hbd : Pattern)
    (m k : Nat) (hne : entries ≠ []) (hm : m % entries.length = 0)
    (hk : k ≤ entries.length) :
    convertExpected entries jsd hbd m ++
      (entries.take k).map (mkConvertLayer jsd hbd) =
      convertExpected entries jsd hbd (m + k) := by
  have hn : 0 < entries.length := List.length_pos.mpr hne
  simp only [convertExpected]
  apply List.ext_getElem
  · simp
    omega
  · intro i h1 h2
    simp only [List.length_append, List.length_map, List.length_range,
      List.length_take] at h1 h2
    rw [List.getElem_map, List.getElem_range]
    by_cases hi : i < m
    · rw [List.getElem_append_left (by simpa using hi)]
      rw [List.getElem_map, List.getElem_range]
    · have hmi : m ≤ i := by omega
      rw [List.getElem_append_right (by simpa using hmi)]
      have him : i - m < k := by omega
      have himn : i - m < entries.length := by omega
      simp only [List.length_map, List.length_range]
      rw [List.getElem_map, List.getElem_take]
      have hmod : i % entries.length = i - m := by
        obtain ⟨q, hq⟩ := Nat.dvd_of_mod_eq_zero hm
        conv_lhs => rw [show i = (i - m) + entries.length * q from by omega]
        rw [Nat.add_mul_mod_self_left]
        exact Nat.mod_eq_of_lt himn
      rw [hmod, List.getD_eq_getElem]

/-- Helper: one round of the outer while loop from a cyclic prefix of
length m, a multiple of the entry count, reaches the cyclic prefix of
length min target (m + number of entries). -/
theorem convertStep (entries : List BossEntry) (target : Nat)
    (jsd hbd : Pattern) (m : Nat) (hne : entries ≠ [])
    (hm : m % entries.length = 0) (hlt : m < target) :
    convertInnerFor entries target jsd hbd
        (convertExpected entries jsd hbd m) =
      convertExpected entries jsd hbd (min target (m + entries.length)) ∧
    (min target (m + entries.length) % entries.length = 0 ∨
      min target (m + entries.length) = target) ∧
    m < min target (m + entries.length) ∧
    min target (m + entries.length) ≤ target := by
  have hn : 0 < entries.length := List.length_pos.mpr hne
  have hlen : (convertExpected entries jsd hbd m).length = m := by
    simp [convertExpected]
  set k := min (target - m) entries.length with hk
  have hkle : k ≤ entries.length := Nat.min_le_right _ _
  have hmink : min target (m + entries.length) = m + k := by omega
  have htake : entries.take (target - m) = entries.take k := by
    by_cases hc : target - m ≤ entries.length
    · have : k = target - m := by omega
      rw [this]
    · have hkn : k = entries.length := by omega
      rw [hkn, List.take_length, List.take_of_length_le (by omega)]
  refine ⟨?_, ?_, by omega, by omega⟩
  · rw [convertInnerFor_eq, hlen, htake, hmink]
    exact convertExpected_append entries jsd hbd m k hne hm hkle
  · rw [hmink]
    by_cases hc : target - m ≤ entries.length
    · right; omega
    · left
      have hkn : k = entries.length := by omega
      rw [hkn, Nat.add_mod_right]
      exact hm

/-- Helper: with a nonempty entry list and enough fuel the while loop
terminates with the full cyclic layer list. -/
theorem convertLayerLoop_terminates (entries : List BossEntry)
    (target : Nat) (jsd hbd : Pattern) (hne : entries ≠ []) :
    ∀ (fuel m : Nat), (m % entries.length = 0 ∨ m = target) → m ≤ target →
      target - m < fuel →
      convertLayerLoop fuel entries target jsd hbd
          (convertExpected entries jsd hbd m) =
        some (convertExpected entries jsd hbd target) := by
  intro fuel
  induction fuel with
  | zero => intro m _ _ h; omega
  | succ fuel ih =>
    intro m hm hle hfuel
    have hlen : (convertExpected entries jsd hbd m).length = m := by
      simp [convertExpected]
    unfold convertLayerLoop
    by_cases hlt : m < target
    · rcases hm with hm | hm
      · obtain ⟨hstep, hm2, hlt2, hle2⟩ :=
          convertStep entries target jsd hbd m hne hm hlt
        rw [hlen]
        simp only [hlt, if_true]
        rw [hstep]
        exact ih (min target (m + entries.length)) hm2 hle2 (by omega)
      · omega
    · have hmt : m = target := by omega
      rw [hlen]
      simp [hlt, hmt]

/-- Helper: whenever the while loop returns a result from a cyclic prefix
state, that result is the full cyclic layer list. -/
theorem convertLayerLoop_some (entries : List BossEntry) (target : Nat)
    (jsd hbd : Pattern) (hne : entries ≠ []) :
    ∀ (fuel m : Nat) (r : List Layer),
      (m % entries.length = 0 ∨ m = target) → m ≤ target →
      convertLayerLoop fuel entries target jsd hbd
          (convertExpected entries jsd hbd m) = some r →
      r = convertExpected entries jsd hbd target := by
  intro fuel
  induction fuel with
  | zero => intro m r _ _ h; simp [convertLayerLoop] at h
  | succ fuel ih =>
    intro m r hm hle h
    have hlen : (convertExpected entries jsd hbd m).length = m := by
      simp [convertExpected]
    unfold convertLayerLoop at h
    rw [hlen] at h
    by_cases hlt : m < target
    · simp only [hlt, if_true] at h
      rcases hm with hm | hm
      · obtain ⟨hstep, hm2, hlt2, hle2⟩ :=
          convertStep entries target jsd hbd m hne hm hlt
        rw [hstep] at h
        exact ih (min target (m + entries.length)) r hm2 hle2 h
      · omega
    · have hmt : m = target := by omega
      simp [hlt] at h
      rw [← h, hmt]

/-- Helper: on an empty entry list the while loop makes no progress and
never terminates when layers are requested. -/
theorem convertLayerLoop_empty (target : Nat) (jsd hbd : Pattern) :
    ∀ (fuel : Nat) (acc : List Layer), acc.length < target →
      convertLayerLoop fuel [] target jsd hbd acc = none := by
  intro fuel
  induction fuel with
  | zero => intro acc _; rfl
  | succ fuel ih =>
    intro acc hacc
    unfold convertLayerLoop
    simp only [hacc, if_true]
    exact ih acc (by simpa [convertInnerFor] using hacc)

/-- C10: for a positive requested layer count the layer construction loop
of convert terminates exactly when the BOSS file list is nonempty, and any
terminating run produces exactly the requested number of layers, cycling
through the entries in order, each layer carrying the single preheat
pattern as its jumpSafe group and the single postheat pattern as its
heatBalance group. -/
theorem convert_layers_spec :
    ∀ (entries : List BossEntry) (target : Nat) (jsd hbd : Pattern),
      0 < target →
      ((∃ fuel r, convertLayerLoop fuel entries target jsd hbd [] = some r) ↔
        entries ≠ []) ∧
      (∀ fuel r, convertLayerLoop fuel entries target jsd hbd [] = some r →
        r = convertExpected entries jsd hbd target ∧ r.length = target ∧
        ∀ l ∈ r, l.jumpSafe = some [jsd] ∧ l.heatBalance = some [hbd]) := by
  intro entries target jsd hbd htarget
  have hnil : convertExpected entries jsd hbd 0 = [] := by
    simp [convertExpected]
  constructor
  · constructor
    · rintro ⟨fuel, r, h⟩ rfl
      rw [convertLayerLoop_empty target jsd hbd fuel [] (by simpa)] at h
      exact Option.noConfusion h
    · intro hne
      refine ⟨target + 1, convertExpected entries jsd hbd target, ?_⟩
      have := convertLayerLoop_terminates entries target jsd hbd hne
        (target + 1) 0 (Or.inl (Nat.zero_mod _)) (by omega) (by omega)
      rwa [hnil] at this
  · intro fuel r h
    have hne : entries ≠ [] := by
      rintro rfl
      rw [convertLayerLoop_empty target jsd hbd fuel [] (by simpa)] at h
      exact Option.noConfusion h
    have hr : r = convertExpected entries jsd hbd target := by
      apply convertLayerLoop_some entries target jsd hbd hne fuel 0 r
        (Or.inl (Nat.zero_mod _)) (by omega)
      rwa [hnil]
    refine ⟨hr, ?_, ?_⟩
    · rw [hr]; simp [convertExpected]
    · intro l hl
      rw [hr] at hl
      simp only [convertExpected, List.mem_map] at hl
      obtain ⟨i, _, hil⟩ := hl
      rw [← hil]
      exact ⟨rfl, rfl⟩

/-- Witness for C10 at concrete inputs. -/
theorem convert_layers_spec_witness :
    ((∃ fuel r, convertLayerLoop fuel [BossEntry.single "a.obp"] 3
        ⟨"obp/pre.obp", 5⟩ ⟨"obp/post.obp", 6⟩ [] = some r) ↔
      ([BossEntry.single "a.obp"] : List BossEntry) ≠ []) ∧
    (∀ fuel r, convertLayerLoop fuel [BossEntry.single "a.obp"] 3
        ⟨"obp/pre.obp", 5⟩ ⟨"obp/post.obp", 6⟩ [] = some r →
      r = convertExpected [BossEntry.single "a.obp"] ⟨"obp/pre.obp", 5⟩
        ⟨"obp/post.obp", 6⟩ 3 ∧ r.length = 3 ∧
      ∀ l ∈ r, l.jumpSafe = some [⟨"obp/pre.obp", 5⟩] ∧
        l.heatBalance = some [⟨"obp/post.obp", 6⟩]) :=
  convert_layers_spec [BossEntry.single "a.obp"] 3 ⟨"obp/pre.obp", 5⟩
    ⟨"obp/post.obp", 6⟩ (by decide)

/-- How a bind of controller computations applies to a state. -/
theorem bind_apply {α β : Type} (x : M α) (f : α → M β) (s : St) :
    (x >>= f) s =
      match x s with
      | (t, Res.ok a, s1) =>
        ((t ++ (f a s1).1, (f a s1).2.1, (f a s1).2.2) : Trace × Res β × St)
      | (t, Res.abort m, s1) => (t, Res.abort m, s1)
      | (t, Res.stuck, s1) => (t, Res.stuck, s1) := by
  show (match x s with
      | (t, Res.ok a, s1) =>
        match f a s1 with
        | (t2, r, s2) => (t ++ t2, r, s2)
      | (t, Res.abort m, s1) => (t, Res.abort m, s1)
      | (t, Res.stuck, s1) => (t, Res.stuck, s1)) = _
  rcases hx : x s with ⟨t, r, s1⟩
  cases r with
  | ok a => rcases hf : f a s1 with ⟨t2, r2, s2⟩; simp [hf]
  | abort m => rfl
  | stuck => rfl

/-- Bind after a computation that returned normally. -/
theorem bind_ok_apply {α β : Type} {x : M α} {f : α → M β} {s s1 : St}
    {t : Trace} {a : α} (h : x s = (t, Res.ok a, s1)) :
    (x >>= f) s = (t ++ (f a s1).1, (f a s1).2.1, (f a s1).2.2) := by
  rw [bind_apply, h]

/-- Bind after a computation that aborted. -/
theorem bind_abort_apply {α β : Type} {x : M α} {f : α → M β} {s s1 : St}
    {t : Trace} {m : String} (h : x s = (t, Res.abort m, s1)) :
    (x >>= f) s = (t, Res.abort m, s1) := by
  rw [bind_apply, h]

/-- Bind after a computation that got stuck. -/
theorem bind_stuck_apply {α β : Type} {x : M α} {f : α → M β} {s s1 : St}
    {t : Trace} (h : x s = (t, Res.stuck, s1)) :
    (x >>= f) s = (t, Res.stuck, s1) := by
  rw [bind_apply, h]

/-- How pure applies to a state. -/
theorem pure_apply {α : Type} (a : α) (s : St) :
    (pure a : M α) s = ([], Res.ok a, s) := rfl

/-- A trace without any abort event. -/
def NoRaise (t : Trace) : Prop := ∀ m, Ev.raiseAbort m ∉ t

theorem NoRaise.append {t1 t2 : Trace} (h1 : NoRaise t1) (h2 : NoRaise t2) :
    NoRaise (t1 ++ t2) := by
  intro m hm
  rcases List.mem_append.mp hm with h | h
  · exact h1 m h
  · exact h2 m h

theorem noRaise_nil : NoRaise [] := by intro m hm; cases hm

/-- Raise discipline of the controller: a computation that aborts with
message m emits the abort event exactly once, as the very last event of its
trace, preceded by a best-effort queue clear and, for every message except
the beam power low timeout, by a telemetry publish of the same message; a
computation that does not abort emits no abort event at all. -/
def Fatal {α : Type} (x : M α) : Prop := ∀ s,
  match x s with
  | (t, Res.abort m, _) => ∃ t0, t = t0 ++ [Ev.raiseAbort m] ∧ NoRaise t0 ∧
      Ev.clearQueue ∈ t0 ∧ (m ≠ beamLowMsg → Ev.publish m ∈ t0)
  | (t, _, _) => NoRaise t

/-- Fatal is preserved by sequencing. -/
theorem Fatal.fbind {α β : Type} {x : M α} {f : α → M β} (hx : Fatal x)
    (hf : ∀ a, Fatal (f a)) : Fatal (x >>= f) := by
  intro s
  have hxs := hx s
  rcases hcx : x s with ⟨t, r, s1⟩
  rw [hcx] at hxs
  cases r with
  | ok a =>
    have hfs := hf a s1
    rcases hcf : f a s1 with ⟨t2, r2, s2⟩
    rw [hcf] at hfs
    rw [bind_ok_apply hcx, hcf]
    cases r2 with
    | ok b => exact hxs.append hfs
    | abort m =>
      obtain ⟨t0, ht, hnr, hclear, hpub⟩ := hfs
      exact ⟨t ++ t0, by rw [ht, List.append_assoc], hxs.append hnr,
        List.mem_append_right t hclear,
        fun hm => List.mem_append_right t (hpub hm)⟩
    | stuck => exact hxs.append hfs
  | abort m => rw [bind_abort_apply hcx]; exact hxs
  | stuck => rw [bind_stuck_apply hcx]; exact hxs

/-- Fatal is preserved by branching. -/
theorem Fatal.fite {α : Type} (c : Prop) [Decidable c] {x y : M α}
    (hx : Fatal x) (hy : Fatal y) : Fatal (if c then x else y) := by
  by_cases h : c
  · simpa [h] using hx
  · simpa [h] using hy

theorem fatal_pure {α : Type} (a : α) : Fatal (pure a : M α) := by
  intro s
  rw [pure_apply]
  exact noRaise_nil

theorem fatal_stuck {α : Type} :
    Fatal (fun s => (([], Res.stuck, s) : Trace × Res α × St)) := by
  intro s
  exact noRaise_nil

theorem fatal_emit (e : Ev) (he : ∀ m, e ≠ Ev.raiseAbort m) :
    Fatal (emit e) := by
  intro s
  intro m hm
  rcases List.mem_singleton.mp hm with h
  exact he m (h ▸ rfl)

theorem fatal_osTime : Fatal osTime := fun _ => noRaise_nil

theorem fatal_sleepM (dt : Nat) : Fatal (sleepM dt) := by
  intro s
  intro m hm
  simp [sleepM] at hm

theorem fatal_getNpl : Fatal getNpl := fun _ => noRaise_nil

theorem fatal_setNpl (b : Bool) : Fatal (setNpl b) := fun _ => noRaise_nil

theorem fatal_popBeamIsOn : Fatal popBeamIsOn := by
  intro s
  unfold popBeamIsOn
  cases s.sc.beamIsOn <;> exact noRaise_nil

theorem fatal_popRestartHV : Fatal popRestartHV := by
  intro s
  unfold popRestartHV
  cases s.sc.restartHV <;> exact noRaise_nil

theorem fatal_popHvCurrent : Fatal popHvCurrent := by
  intro s
  unfold popHvCurrent
  cases s.sc.hvCurrent <;> exact noRaise_nil

theorem fatal_popTemperature : Fatal popTemperature := by
  intro s
  unfold popTemperature
  cases s.sc.temperature <;> exact noRaise_nil

theorem fatal_popClearQueue : Fatal popClearQueue := by
  intro s
  unfold popClearQueue
  cases s.sc.clearQueue <;> exact noRaise_nil

theorem fatal_popRecoat : Fatal popRecoat := by
  intro s
  unfold popRecoat
  cases s.sc.recoat <;> exact noRaise_nil

theorem fatal_popExposure : Fatal popExposure := by
  intro s
  unfold popExposure
  cases s.sc.exposure <;> exact noRaise_nil

theorem fatal_popRestartArc : Fatal popRestartArc := by
  intro s
  unfold popRestartArc
  cases s.sc.restartArc <;> exact noRaise_nil

theorem fatal_popJsReps : Fatal popJsReps := by
  intro s
  unfold popJsReps
  cases s.sc.jsReps <;> exact noRaise_nil

theorem fatal_popHbReps : Fatal popHbReps := by
  intro s
  unfold popHbReps
  cases s.sc.hbReps <;> exact noRaise_nil

theorem fatal_logM (msg : String) : Fatal (logM msg) := by
  unfold logM
  exact (fatal_emit _ (by simp)).fbind fun _ => fatal_emit _ (by simp)

theorem fatal_clear_exposure_queue : Fatal clear_exposure_queue := by
  unfold clear_exposure_queue
  exact fatal_popClearQueue.fbind fun b =>
    (fatal_emit _ (by simp)).fbind fun _ => fatal_pure b

theorem fatal_restartHVM : Fatal restartHVM := by
  unfold restartHVM
  exact fatal_popRestartHV.fbind fun b =>
    (fatal_emit _ (by simp)).fbind fun _ => fatal_pure b

theorem fatal_recoat_cycle : Fatal recoat_cycle := by
  unfold recoat_cycle
  exact fatal_popRecoat.fbind fun b =>
    (fatal_emit _ (by simp)).fbind fun _ => fatal_pure b

theorem fatal_restart_after_arc_trip (npl : Option Bool) :
    Fatal (restart_after_arc_trip npl) := by
  unfold restart_after_arc_trip
  exact fatal_popRestartArc.fbind fun b =>
    (fatal_emit _ (by simp)).fbind fun _ => fatal_pure b

/-- Evaluation of logfatal: with no scripted queue clear response left it
gets stuck after the telemetry publish, otherwise it publishes, clears and
raises. -/
theorem logfatal_apply (msg : String) (s : St) :
    logfatal msg s =
      match s.sc.clearQueue with
      | [] => ([Ev.print ("Build Error: " ++ msg),
          Ev.publish ("Build Error: " ++ msg)], Res.stuck, s)
      | _ :: rest => ([Ev.print ("Build Error: " ++ msg),
          Ev.publish ("Build Error: " ++ msg), Ev.clearQueue,
          Ev.raiseAbort ("Build Error: " ++ msg)],
          Res.abort ("Build Error: " ++ msg),
          { s with sc := { s.sc with clearQueue := rest } }) := by
  cases hc : s.sc.clearQueue <;>
    simp [logfatal, logM, emit, clear_exposure_queue, popClearQueue,
      luaError, bind_apply, pure_apply, hc]

theorem fatal_logfatal (msg : String) : Fatal (logfatal msg) := by
  intro s
  rw [logfatal_apply]
  cases hc : s.sc.clearQueue with
  | nil =>
    intro m hm
    simp at hm
  | cons b rest =>
    refine ⟨[Ev.print ("Build Error: " ++ msg),
      Ev.publish ("Build Error: " ++ msg), Ev.clearQueue], rfl, ?_, by simp,
      fun _ => by simp⟩
    intro m hm
    simp at hm

theorem fatal_fatalUnless (ok : Bool) (msg : String) :
    Fatal (fatalUnless ok msg) := by
  unfold fatalUnless
  exact Fatal.fite _ (fatal_pure ()) (fatal_logfatal msg)

theorem fatal_ensureBeam (msg : String) : Fatal (ensureBeam msg) := by
  unfold ensureBeam
  exact fatal_popBeamIsOn.fbind fun isOn => Fatal.fite _ (fatal_pure ())
    (fatal_restartHVM.fbind fun r => fatal_fatalUnless r msg)

theorem fatal_waitLoop (pred : M Bool) (hp : Fatal pred)
    (interval deadline : Nat) :
    ∀ fuel, Fatal (waitLoop pred interval deadline fuel) := by
  intro fuel
  induction fuel with
  | zero => exact fatal_stuck
  | succ fuel ih =>
    rw [waitLoop_succ]
    exact hp.fbind fun b => Fatal.fite _ (fatal_pure true)
      ((fatal_sleepM _).fbind fun _ => fatal_osTime.fbind fun t =>
        Fatal.fite _ (fatal_pure false) ih)

theorem fatal_waitM (fuel : Nat) (pred : M Bool) (hp : Fatal pred)
    (timeout interval : Nat) : Fatal (waitM fuel pred timeout interval) := by
  unfold waitM
  exact fatal_osTime.fbind fun t0 => fatal_waitLoop pred hp interval _ fuel

/-- Fatal holds for the beam power low failure branch even though it
publishes nothing: its abort message is the exempted beam low message. -/
theorem fatal_beamLowFail :
    Fatal (clear_exposure_queue >>= fun _ => luaError beamLowMsg) := by
  intro s
  cases hc : s.sc.clearQueue with
  | nil =>
    have h1 : clear_exposure_queue s = ([], Res.stuck, s) := by
      simp [clear_exposure_queue, popClearQueue, bind_apply, pure_apply, hc]
    rw [bind_stuck_apply h1]
    exact noRaise_nil
  | cons b rest =>
    have h1 : clear_exposure_queue s = ([Ev.clearQueue], Res.ok b,
        { s with sc := { s.sc with clearQueue := rest } }) := by
      simp [clear_exposure_queue, popClearQueue, emit, bind_apply,
        pure_apply, hc]
    rw [bind_ok_apply h1]
    refine ⟨[Ev.clearQueue], rfl, ?_, by simp, fun hm => absurd rfl hm⟩
    intro m hm
    simp at hm

theorem fatal_wait_for_beam_power_low (fuel : Nat) :
    Fatal (wait_for_beam_power_low fuel) := by
  unfold wait_for_beam_power_low
  refine (fatal_waitM fuel _ ?_ 60 2).fbind fun ok =>
    Fatal.fite _ (fatal_pure ()) fatal_beamLowFail
  exact fatal_popHvCurrent.fbind fun hv => fatal_pure _

theorem fatal_preheatPred (target : Int) : Fatal (preheatPred target) := by
  unfold preheatPred
  exact (fatal_ensureBeam _).fbind fun _ =>
    fatal_popTemperature.fbind fun temp => fatal_pure _

theorem fatal_classifyStep (err : Nat) : Fatal (classifyStep err) := by
  unfold classifyStep
  rcases err with _ | _ | _ | _ | _ | n
  · exact fatal_pure ()
  · exact (fatal_logM _).fbind fun _ => fatal_setNpl _
  · exact (fatal_logM _).fbind fun _ => fatal_setNpl _
  · exact (fatal_logM _).fbind fun _ => fatal_setNpl _
  · exact (fatal_logM _).fbind fun _ => fatal_setNpl _
  · exact fatal_pure ()

theorem fatal_recoverStep (err : Nat) : Fatal (recoverStep err) := by
  unfold recoverStep
  refine Fatal.fite _ ?_ (fatal_pure ())
  exact fatal_clear_exposure_queue.fbind fun _ =>
    fatal_getNpl.fbind fun npl =>
    (fatal_restart_after_arc_trip npl).fbind fun r =>
    fatal_fatalUnless r _

theorem fatal_checkRetry (retry2 : Nat) : Fatal (checkRetry retry2) := by
  unfold checkRetry
  exact Fatal.fite _ (fatal_logfatal _) (fatal_pure ())

theorem fatal_submitStep (index : Nat) (layer : Layer) (retry : Nat) :
    Fatal (submitStep index layer retry) := by
  unfold submitStep
  exact fatal_popJsReps.fbind fun js =>
    (fatal_emit _ (by simp)).fbind fun _ =>
    fatal_popHbReps.fbind fun hb =>
    (fatal_emit _ (by simp)).fbind fun _ =>
    (fatal_logM _).fbind fun _ =>
    fatal_popExposure.fbind fun err =>
    (fatal_emit _ (by simp)).fbind fun _ =>
    fatal_pure _

theorem fatal_layerAttempt (index : Nat) (layer : Layer) (retry : Nat) :
    Fatal (layerAttempt index layer retry) := by
  unfold layerAttempt
  exact (fatal_submitStep index layer retry).fbind fun err =>
    (fatal_classifyStep err).fbind fun _ =>
    (fatal_recoverStep err).fbind fun _ =>
    (fatal_checkRetry _).fbind fun _ =>
    fatal_pure _

theorem fatal_layerLoop (index : Nat) (layer : Layer) :
    ∀ (fuel retry : Nat), Fatal (layerLoop index layer fuel retry) := by
  intro fuel
  induction fuel with
  | zero => intro retry; exact fatal_stuck
  | succ fuel ih =>
    intro retry
    rw [layerLoop_succ]
    exact (fatal_layerAttempt index layer retry).fbind fun done =>
      Fatal.fite _ (fatal_pure ()) (ih (retry + 1))

theorem fatal_beamCheckAfterRecoat : Fatal beamCheckAfterRecoat := by
  unfold beamCheckAfterRecoat
  exact fatal_popBeamIsOn.fbind fun isOn => Fatal.fite _ (fatal_pure ())
    ((fatal_logM _).fbind fun _ => fatal_restartHVM.fbind fun r =>
      fatal_fatalUnless r _)

theorem fatal_runOneLayer (fuel numLayers index : Nat) (layer : Layer) :
    Fatal (runOneLayer fuel numLayers index layer) := by
  unfold runOneLayer
  exact (fatal_emit _ (by simp)).fbind fun _ =>
    (fatal_emit _ (by simp)).fbind fun _ =>
    (fatal_logM _).fbind fun _ =>
    (fatal_wait_for_beam_power_low fuel).fbind fun _ =>
    (fatal_logM _).fbind fun _ =>
    fatal_recoat_cycle.fbind fun rc =>
    (fatal_fatalUnless rc _).fbind fun _ =>
    fatal_beamCheckAfterRecoat.fbind fun _ =>
    fatal_layerLoop index layer fuel 0

theorem fatal_runLayers (fuel numLayers : Nat) :
    ∀ (layers : List Layer) (index : Nat),
      Fatal (runLayers fuel numLayers layers index) := by
  intro layers
  induction layers with
  | nil => intro index; exact fatal_pure ()
  | cons layer rest ih =>
    intro index
    rw [runLayers_cons]
    exact (fatal_runOneLayer fuel numLayers index layer).fbind fun _ =>
      ih (index + 1)

theorem fatal_runBuild (fuel : Nat) (info : BuildInfo) :
    Fatal (runBuild fuel info) := by
  unfold runBuild
  exact (fatal_emit _ (by simp)).fbind fun _ =>
    (fatal_emit _ (by simp)).fbind fun _ =>
    (fatal_emit _ (by simp)).fbind fun _ =>
    (fatal_emit _ (by simp)).fbind fun _ =>
    (fatal_emit _ (by simp)).fbind fun _ =>
    (fatal_logM _).fbind fun _ =>
    (fatal_logM _).fbind fun _ =>
    (fatal_ensureBeam _).fbind fun _ =>
    (fatal_logM _).fbind fun _ =>
    (fatal_logM _).fbind fun _ =>
    (fatal_emit _ (by simp)).fbind fun _ =>
    (fatal_emit _ (by simp)).fbind fun _ =>
    (fatal_waitM fuel _ (fatal_preheatPred _) _ 1).fbind fun ok =>
    (fatal_fatalUnless ok _).fbind fun _ =>
    fatal_clear_exposure_queue.fbind fun c =>
    (fatal_fatalUnless c _).fbind fun _ =>
    (fatal_emit _ (by simp)).fbind fun _ =>
    (fatal_runLayers fuel _ info.layers 1).fbind fun _ =>
    fatal_clear_exposure_queue.fbind fun _ =>
    (fatal_logM _).fbind fun _ =>
    (fatal_wait_for_beam_power_low fuel).fbind fun _ =>
    (fatal_logM _).fbind fun _ =>
    (fatal_emit _ (by simp)).fbind fun _ =>
    (fatal_logM _).fbind fun _ =>
    (fatal_emit _ (by simp)).fbind fun _ =>
    fatal_logM _

/-- The retry counter recorded on a submission event, if any. -/
def submitRetryOf : Ev → Option Nat
  | Ev.submitExposure r _ _ _ _ => some r
  | _ => none

/-- The retry counters of all exposure submissions of a trace, in order. -/
def submitsOf (t : Trace) : List Nat := t.filterMap submitRetryOf

theorem submitsOf_append (t1 t2 : Trace) :
    submitsOf (t1 ++ t2) = submitsOf t1 ++ submitsOf t2 :=
  List.filterMap_append t1 t2 submitRetryOf

theorem submitsOf_nil : submitsOf [] = [] := rfl

/-- Computations that never submit an exposure. -/
def SubmitFree {α : Type} (x : M α) : Prop := ∀ s, submitsOf (x s).1 = []

theorem SubmitFree.sbind {α β : Type} {x : M α} {f : α → M β}
    (hx : SubmitFree x) (hf : ∀ a, SubmitFree (f a)) :
    SubmitFree (x >>= f) := by
  intro s
  have hxs := hx s
  rcases hcx : x s with ⟨t, r, s1⟩
  rw [hcx] at hxs
  cases r with
  | ok a =>
    rw [bind_ok_apply hcx]
    simp only [submitsOf_append] at *
    rw [hxs, hf a s1]
    rfl
  | abort m => rw [bind_abort_apply hcx]; exact hxs
  | stuck => rw [bind_stuck_apply hcx]; exact hxs

theorem SubmitFree.site {α : Type} (c : Prop) [Decidable c] {x y : M α}
    (hx : SubmitFree x) (hy : SubmitFree y) :
    SubmitFree (if c then x else y) := by
  by_cases h : c
  · simpa [h] using hx
  · simpa [h] using hy

theorem submitFree_pure {α : Type} (a : α) : SubmitFree (pure a : M α) :=
  fun _ => rfl

theorem submitFree_stuck {α : Type} :
    SubmitFree (fun s => (([], Res.stuck, s) : Trace × Res α × St)) :=
  fun _ => rfl

theorem submitFree_emit (e : Ev) (he : submitRetryOf e = none) :
    SubmitFree (emit e) := by
  intro s
  simp [emit, submitsOf, List.filterMap, he]

theorem submitFree_osTime : SubmitFree osTime := fun _ => rfl

theorem submitFree_sleepM (dt : Nat) : SubmitFree (sleepM dt) :=
  fun _ => rfl

theorem submitFree_getNpl : SubmitFree getNpl := fun _ => rfl

theorem submitFree_setNpl (b : Bool) : SubmitFree (setNpl b) := fun _ => rfl

theorem submitFree_popBeamIsOn : SubmitFree popBeamIsOn := by
  intro s
  unfold popBeamIsOn
  cases s.sc.beamIsOn <;> rfl

theorem submitFree_popRestartHV : SubmitFree popRestartHV := by
  intro s
  unfold popRestartHV
  cases s.sc.restartHV <;> rfl

theorem submitFree_popHvCurrent : SubmitFree popHvCurrent := by
  intro s
  unfold popHvCurrent
  cases s.sc.hvCurrent <;> rfl

theorem submitFree_popTemperature : SubmitFree popTemperature := by
  intro s
  unfold popTemperature
  cases s.sc.temperature <;> rfl

theorem submitFree_popClearQueue : SubmitFree popClearQueue := by
  intro s
  unfold popClearQueue
  cases s.sc.clearQueue <;> rfl

theorem submitFree_popRecoat : SubmitFree popRecoat := by
  intro s
  unfold popRecoat
  cases s.sc.recoat <;> rfl

theorem submitFree_popRestartArc : SubmitFree popRestartArc := by
  intro s
  unfold popRestartArc
  cases s.sc.restartArc <;> rfl

theorem submitFree_logM (msg : String) : SubmitFree (logM msg) := by
  unfold logM
  exact (submitFree_emit _ (by rfl)).sbind fun _ => submitFree_emit _ (by rfl)

theorem submitFree_clear_exposure_queue : SubmitFree clear_exposure_queue := by
  unfold clear_exposure_queue
  exact submitFree_popClearQueue.sbind fun b =>
    (submitFree_emit _ (by rfl)).sbind fun _ => submitFree_pure b

theorem submitFree_restartHVM : SubmitFree restartHVM := by
  unfold restartHVM
  exact submitFree_popRestartHV.sbind fun b =>
    (submitFree_emit _ (by rfl)).sbind fun _ => submitFree_pure b

theorem submitFree_recoat_cycle : SubmitFree recoat_cycle := by
  unfold recoat_cycle
  exact submitFree_popRecoat.sbind fun b =>
    (submitFree_emit _ (by rfl)).sbind fun _ => submitFree_pure b

theorem submitFree_restart_after_arc_trip (npl : Option Bool) :
    SubmitFree (restart_after_arc_trip npl) := by
  unfold restart_after_arc_trip
  exact submitFree_popRestartArc.sbind fun b =>
    (submitFree_emit _ (by rfl)).sbind fun _ => submitFree_pure b

theorem submitFree_luaError (msg : String) : SubmitFree (luaError msg) :=
  fun _ => rfl

theorem submitFree_logfatal (msg : String) : SubmitFree (logfatal msg) := by
  unfold logfatal
  exact (submitFree_logM _).sbind fun _ =>
    submitFree_clear_exposure_queue.sbind fun _ => submitFree_luaError _

theorem submitFree_fatalUnless (ok : Bool) (msg : String) :
    SubmitFree (fatalUnless ok msg) := by
  unfold fatalUnless
  exact SubmitFree.site _ (submitFree_pure ()) (submitFree_logfatal msg)

theorem submitFree_ensureBeam (msg : String) : SubmitFree (ensureBeam msg) := by
  unfold ensureBeam
  exact submitFree_popBeamIsOn.sbind fun isOn =>
    SubmitFree.site _ (submitFree_pure ())
      (submitFree_restartHVM.sbind fun r => submitFree_fatalUnless r msg)

theorem submitFree_waitLoop (pred : M Bool) (hp : SubmitFree pred)
    (interval deadline : Nat) :
    ∀ fuel, SubmitFree (waitLoop pred interval deadline fuel) := by
  intro fuel
  induction fuel with
  | zero => exact submitFree_stuck
  | succ fuel ih =>
    rw [waitLoop_succ]
    exact hp.sbind fun b => SubmitFree.site _ (submitFree_pure true)
      ((submitFree_sleepM _).sbind fun _ => submitFree_osTime.sbind fun t =>
        SubmitFree.site _ (submitFree_pure false) ih)

theorem submitFree_waitM (fuel : Nat) (pred : M Bool) (hp : SubmitFree pred)
    (timeout interval : Nat) :
    SubmitFree (waitM fuel pred timeout interval) := by
  unfold waitM
  exact submitFree_osTime.sbind fun t0 =>
    submitFree_waitLoop pred hp interval _ fuel

theorem submitFree_wait_for_beam_power_low (fuel : Nat) :
    SubmitFree (wait_for_beam_power_low fuel) := by
  unfold wait_for_beam_power_low
  refine (submitFree_waitM fuel _ ?_ 60 2).sbind fun ok =>
    SubmitFree.site _ (submitFree_pure ())
      (submitFree_clear_exposure_queue.sbind fun _ => submitFree_luaError _)
  exact submitFree_popHvCurrent.sbind fun hv => submitFree_pure _

theorem submitFree_beamCheckAfterRecoat : SubmitFree beamCheckAfterRecoat := by
  unfold beamCheckAfterRecoat
  exact submitFree_popBeamIsOn.sbind fun isOn =>
    SubmitFree.site _ (submitFree_pure ())
      ((submitFree_logM _).sbind fun _ =>
        submitFree_restartHVM.sbind fun r => submitFree_fatalUnless r _)

theorem submitFree_classifyStep (err : Nat) :
    SubmitFree (classifyStep err) := by
  unfold classifyStep
  rcases err with _ | _ | _ | _ | _ | n
  · exact submitFree_pure ()
  · exact (submitFree_logM _).sbind fun _ => submitFree_setNpl _
  · exact (submitFree_logM _).sbind fun _ => submitFree_setNpl _
  · exact (submitFree_logM _).sbind fun _ => submitFree_setNpl _
  · exact (submitFree_logM _).sbind fun _ => submitFree_setNpl _
  · exact submitFree_pure ()

theorem submitFree_recoverStep (err : Nat) : SubmitFree (recoverStep err) := by
  unfold recoverStep
  refine SubmitFree.site _ ?_ (submitFree_pure ())
  exact submitFree_clear_exposure_queue.sbind fun _ =>
    submitFree_getNpl.sbind fun npl =>
    (submitFree_restart_after_arc_trip npl).sbind fun r =>
    submitFree_fatalUnless r _

theorem submitFree_checkRetry (retry2 : Nat) :
    SubmitFree (checkRetry retry2) := by
  unfold checkRetry
  exact SubmitFree.site _ (submitFree_logfatal _) (submitFree_pure ())

/-- The value of the newPowderLayer global after the classification
branches for one result code (source: LUA_SCRIPT lines 209-225): codes 1,
2 and 4 set it false, code 3 sets it true, and code 0 as well as unhandled
codes leave it unchanged. -/
def nplAfter (err : Nat) (npl : Option Bool) : Option Bool :=
  match err with
  | 1 => some false
  | 2 => some false
  | 3 => some true
  | 4 => some false
  | _ => npl

/-- Evaluation of the classification step: it only logs and assigns the
newPowderLayer global. -/
theorem classifyStep_apply (err : Nat) (s : St) :
    classifyStep err s =
      ((match err with
        | 1 => [Ev.print "Arc trip during Jump Safe exposure",
            Ev.publish "Arc trip during Jump Safe exposure"]
        | 2 => [Ev.print "Arc trip during Spatter Safe exposure",
            Ev.publish "Arc trip during Spatter Safe exposure"]
        | 3 => [Ev.print "Arc trip during Melt exposure",
            Ev.publish "Arc trip during Melt exposure"]
        | 4 => [Ev.print "Arc trip during Heat Balance exposure",
            Ev.publish "Arc trip during Heat Balance exposure"]
        | _ => ([] : Trace)), Res.ok (),
        { s with npl := nplAfter err s.npl }) := by
  rcases err with _ | _ | _ | _ | _ | n <;> rfl

/-- Evaluation of the submission step when all needed scripted responses
are present. -/
theorem submitStep_apply (index : Nat) (layer : Layer) (retry : Nat)
    (s : St) (j : Nat) (js : List Nat) (hb : Nat) (hbs : List Nat)
    (err : Nat) (es : List Nat) (hjs : s.sc.jsReps = j :: js)
    (hhb : s.sc.hbReps = hb :: hbs) (hex : s.sc.exposure = err :: es) :
    submitStep index layer retry s =
      ([Ev.print ("Jump safe reps: " ++ toString j),
        Ev.print ("Heat balance reps: " ++ toString hb),
        Ev.print (exposeMsg index retry),
        Ev.publish (exposeMsg index retry),
        Ev.submitExposure retry (buildAttemptPatterns layer j hb).1
          (buildAttemptPatterns layer j hb).2.1
          (buildAttemptPatterns layer j hb).2.2.1
          (buildAttemptPatterns layer j hb).2.2.2], Res.ok err,
        { s with sc := { s.sc with
            jsReps := js, hbReps := hbs, exposure := es } }) := by
  simp [submitStep, popJsReps, popHbReps, popExposure, emit, logM,
    bind_apply, pure_apply, hjs, hhb, hex]

/-- The submission step carries exactly one submission event tagged with
the current retry counter when it returns a result code, and none when it
runs out of scripted responses; it never aborts. -/
theorem submitStep_spec (index : Nat) (layer : Layer) (retry : Nat)
    (s : St) :
    (∀ t e s2, submitStep index layer retry s = (t, Res.ok e, s2) →
      submitsOf t = [retry]) ∧
    (∀ t s2, submitStep index layer retry s = (t, Res.stuck, s2) →
      submitsOf t = []) ∧
    (∀ t m s2, submitStep index layer retry s = (t, Res.abort m, s2) →
      False) := by
  cases hjs : s.sc.jsReps with
  | nil =>
    have h : submitStep index layer retry s = ([], Res.stuck, s) := by
      simp [submitStep, popJsReps, bind_apply, hjs]
    refine ⟨fun t e s2 he => ?_, fun t s2 hst => ?_, fun t m s2 hab => ?_⟩
    · rw [h] at he; simp at he
    · rw [h] at hst
      simp at hst
      rw [hst.1]
      rfl
    · rw [h] at hab; simp at hab
  | cons j js =>
    cases hhb : s.sc.hbReps with
    | nil =>
      have h : submitStep index layer retry s =
          ([Ev.print ("Jump safe reps: " ++ toString j)], Res.stuck,
            { s with sc := { s.sc with jsReps := js } }) := by
        simp [submitStep, popJsReps, popHbReps, emit, bind_apply, hjs, hhb]
      refine ⟨fun t e s2 he => ?_, fun t s2 hst => ?_, fun t m s2 hab => ?_⟩
      · rw [h] at he; simp at he
      · rw [h] at hst
        simp at hst
        obtain ⟨h1, -⟩ := hst
        subst h1
        rfl
      · rw [h] at hab; simp at hab
    | cons hb hbs =>
      cases hex : s.sc.exposure with
      | nil =>
        have h : submitStep index layer retry s =
            ([Ev.print ("Jump safe reps: " ++ toString j),
              Ev.print ("Heat balance reps: " ++ toString hb),
              Ev.print (exposeMsg index retry),
              Ev.publish (exposeMsg index retry)], Res.stuck,
              { s with sc := { s.sc with jsReps := js, hbReps := hbs } }) := by
          simp [submitStep, popJsReps, popHbReps, popExposure, emit, logM,
            bind_apply, hjs, hhb, hex]
        refine ⟨fun t e s2 he => ?_, fun t s2 hst => ?_,
          fun t m s2 hab => ?_⟩
        · rw [h] at he; simp at he
        · rw [h] at hst
          simp at hst
          obtain ⟨h1, -⟩ := hst
          subst h1
          rfl
        · rw [h] at hab; simp at hab
      | cons err es =>
        have h := submitStep_apply index layer retry s j js hb hbs err es
          hjs hhb hex
        refine ⟨fun t e s2 he => ?_, fun t s2 hst => ?_,
          fun t m s2 hab => ?_⟩
        · rw [h] at he
          simp at he
          obtain ⟨h1, -, -⟩ := he
          subst h1
          rfl
        · rw [h] at hst; simp at hst
        · rw [h] at hab; simp at hab

/-- Evaluation of the recovery step on a fault when recovery succeeds. -/
theorem recoverStep_apply_ok (err : Nat) (s : St) (herr : err ≠ 0)
    (c : Bool) (cs : List Bool) (hc : s.sc.clearQueue = c :: cs)
    (as : List Bool) (ha : s.sc.restartArc = true :: as) :
    recoverStep err s = ([Ev.clearQueue, Ev.restartArcEv s.npl true],
      Res.ok (), { s with sc := { s.sc with
        clearQueue := cs, restartArc := as } }) := by
  simp [recoverStep, herr, clear_exposure_queue, popClearQueue, getNpl,
    restart_after_arc_trip, popRestartArc, emit, fatalUnless, bind_apply,
    pure_apply, hc, ha]

/-- On any fault with scripted responses available, the recovery step
clears the queue and passes the current newPowderLayer global to arc trip
recovery, whatever the recovery outcome. -/
theorem recoverStep_mem (err : Nat) (s : St) (herr : err ≠ 0)
    (c : Bool) (cs : List Bool) (hc : s.sc.clearQueue = c :: cs)
    (a : Bool) (as : List Bool) (ha : s.sc.restartArc = a :: as) :
    Ev.clearQueue ∈ (recoverStep err s).1 ∧
    Ev.restartArcEv s.npl a ∈ (recoverStep err s).1 := by
  cases a with
  | true => rw [recoverStep_apply_ok err s herr c cs hc as ha]; simp
  | false =>
    have h1 : recoverStep err s =
        (([Ev.clearQueue, Ev.restartArcEv s.npl false] ++
          (logfatal "Unable to recover from arc trip" { s with
            sc := { s.sc with clearQueue := cs, restartArc := as } }).1),
          (logfatal "Unable to recover from arc trip" { s with
            sc := { s.sc with clearQueue := cs, restartArc := as } }).2.1,
          (logfatal "Unable to recover from arc trip" { s with
            sc := { s.sc with clearQueue := cs, restartArc := as } }).2.2) := by
      simp [recoverStep, herr, clear_exposure_queue, popClearQueue, getNpl,
        restart_after_arc_trip, popRestartArc, emit, fatalUnless,
        bind_apply, pure_apply, hc, ha]
    rw [h1]
    simp

/-- Every abort of the recovery step carries the recovery failure
message. -/
theorem recoverStep_abort_msg (err : Nat) (s : St) :
    ∀ t m s2, recoverStep err s = (t, Res.abort m, s2) →
      m = "Build Error: Unable to recover from arc trip" := by
  intro t m s2 h
  by_cases herr : err ≠ 0
  · cases hc : s.sc.clearQueue with
    | nil =>
      have he : recoverStep err s = ([], Res.stuck, s) := by
        simp [recoverStep, herr, clear_exposure_queue, popClearQueue,
          bind_apply, hc]
      rw [he] at h
      simp at h
    | cons c cs =>
      cases ha : s.sc.restartArc with
      | nil =>
        have he : recoverStep err s = ([Ev.clearQueue], Res.stuck,
            { s with sc := { s.sc with clearQueue := cs } }) := by
          simp [recoverStep, herr, clear_exposure_queue, popClearQueue,
            getNpl, restart_after_arc_trip, popRestartArc, emit,
            bind_apply, pure_apply, hc, ha]
        rw [he] at h
        simp at h
      | cons a as =>
        cases a with
        | true =>
          rw [recoverStep_apply_ok err s herr c cs hc as ha] at h
          simp at h
        | false =>
          have h1 : recoverStep err s =
              (([Ev.clearQueue, Ev.restartArcEv s.npl false] ++
                (logfatal "Unable to recover from arc trip" { s with
                  sc := { s.sc with
                    clearQueue := cs, restartArc := as } }).1),
                (logfatal "Unable to recover from arc trip" { s with
                  sc := { s.sc with
                    clearQueue := cs, restartArc := as } }).2.1,
                (logfatal "Unable to recover from arc trip" { s with
                  sc := { s.sc with
                    clearQueue := cs, restartArc := as } }).2.2) := by
            simp [recoverStep, herr, clear_exposure_queue, popClearQueue,
              getNpl, restart_after_arc_trip, popRestartArc, emit,
              fatalUnless, bind_apply, pure_apply, hc, ha]
          rw [h1] at h
          rw [logfatal_apply] at h
          cases cs with
          | nil => simp at h
          | cons c2 cs2 =>
            simp at h
            exact h.2.1.symm
  · have he : recoverStep err s = ([], Res.ok (), s) := by
      simp [recoverStep, herr, pure_apply]
    rw [he] at h
    simp at h

/-- Evaluation of the retry bound check when the bound is respected. -/
theorem checkRetry_le (n : Nat) (s : St) (h : n ≤ 10) :
    checkRetry n s = ([], Res.ok (), s) := by
  simp [checkRetry, show ¬(10 < n) from by omega, pure_apply]

/-- An abort of the retry bound check carries the retry message and means
the counter exceeded the bound. -/
theorem checkRetry_abort (n : Nat) (s : St) :
    ∀ t m s2, checkRetry n s = (t, Res.abort m, s2) →
      m = retryFullMsg ∧ 10 < n := by
  intro t m s2 h
  by_cases hn : 10 < n
  · unfold checkRetry at h
    simp only [hn, if_true] at h
    rw [logfatal_apply] at h
    cases hc : s.sc.clearQueue with
    | nil => rw [hc] at h; simp at h
    | cons c cs =>
      rw [hc] at h
      simp at h
      exact ⟨show m = "Build Error: " ++ retryMsg from h.2.1.symm, hn⟩
  · rw [checkRetry_le n s (by omega)] at h
    simp at h

/-- A normal return of the retry bound check means the counter did not
exceed the bound, and nothing was emitted. -/
theorem checkRetry_ok (n : Nat) (s : St) :
    ∀ t u s2, checkRetry n s = (t, Res.ok u, s2) →
      n ≤ 10 ∧ t = [] ∧ s2 = s := by
  intro t u s2 h
  by_cases hn : 10 < n
  · unfold checkRetry at h
    simp only [hn, if_true] at h
    rw [logfatal_apply] at h
    cases hc : s.sc.clearQueue with
    | nil => rw [hc] at h; simp at h
    | cons c cs => rw [hc] at h; simp at h
  · rw [checkRetry_le n s (by omega)] at h
    simp at h
    exact ⟨by omega, h.1, h.2.symm⟩

/-- Master lemma for one exposure attempt: a normal return submits exactly
once carrying the current retry counter, and when the layer is not done the
incremented counter respected the bound; an abort also submitted exactly
once, and a retry bound abort can only happen from a counter of at least
10; a stuck run submitted at most once. -/
theorem layerAttempt_spec (i : Nat) (l : Layer) (r : Nat) (s : St) :
    (∀ t done s2, layerAttempt i l r s = (t, Res.ok done, s2) →
      submitsOf t = [r] ∧ (done = false → r + 1 ≤ 10)) ∧
    (∀ t m s2, layerAttempt i l r s = (t, Res.abort m, s2) →
      submitsOf t = [r] ∧ (m = retryFullMsg → 10 ≤ r)) ∧
    (∀ t s2, layerAttempt i l r s = (t, Res.stuck, s2) →
      submitsOf t = [] ∨ submitsOf t = [r]) := by
  obtain ⟨hsok, hsstk, hsabt⟩ := submitStep_spec i l r s
  unfold layerAttempt
  rcases h1 : submitStep i l r s with ⟨t1, r1, s1⟩
  cases r1 with
  | abort m => exact (hsabt t1 m s1 h1).elim
  | stuck =>
    have ht1 := hsstk t1 s1 h1
    refine ⟨fun t done s2 he => ?_, fun t m s2 he => ?_, fun t s2 he => ?_⟩
    · rw [bind_stuck_apply h1] at he; simp at he
    · rw [bind_stuck_apply h1] at he; simp at he
    · rw [bind_stuck_apply h1] at he
      simp at he
      obtain ⟨h2, -⟩ := he
      left
      subst h2
      exact ht1
  | ok err =>
    have ht1 := hsok t1 err s1 h1
    have hc2 := classifyStep_apply err s1
    have htc : submitsOf (classifyStep err s1).1 = [] :=
      submitFree_classifyStep err s1
    rw [hc2] at htc
    simp only at htc
    rcases h3 : recoverStep err { s1 with npl := nplAfter err s1.npl } with
      ⟨t3, r3, s3⟩
    have ht3 : submitsOf t3 = [] := by
      have hf := submitFree_recoverStep err
        { s1 with npl := nplAfter err s1.npl }
      rw [h3] at hf
      exact hf
    cases r3 with
    | stuck =>
      refine ⟨fun t done s2 he => ?_, fun t m s2 he => ?_,
        fun t s2 he => ?_⟩ <;>
        simp only [bind_ok_apply h1, bind_ok_apply hc2,
          bind_stuck_apply h3] at he
      · simp at he
      · simp at he
      · simp only [Prod.mk.injEq] at he
        obtain ⟨h2, -⟩ := he
        right
        subst h2
        simp [submitsOf_append, ht1, htc, ht3]
    | abort m0 =>
      have hm0 := recoverStep_abort_msg err
        { s1 with npl := nplAfter err s1.npl } t3 m0 s3 h3
      refine ⟨fun t done s2 he => ?_, fun t m s2 he => ?_,
        fun t s2 he => ?_⟩ <;>
        simp only [bind_ok_apply h1, bind_ok_apply hc2,
          bind_abort_apply h3] at he
      · simp at he
      · simp only [Prod.mk.injEq] at he
        obtain ⟨h2, hm, -⟩ := he
        constructor
        · subst h2
          simp [submitsOf_append, ht1, htc, ht3]
        · intro hmr
          rw [Res.abort.injEq] at hm
          rw [← hm, hm0] at hmr
          exact absurd hmr (by decide)
      · simp at he
    | ok u =>
      rcases h4 : checkRetry (if layerDoneOf err = true then r else r + 1)
        s3 with ⟨t4, r4, s4⟩
      have hn4 : (if layerDoneOf err = true then r else r + 1) ≤ r + 1 := by
        split <;> omega
      cases r4 with
      | stuck =>
        refine ⟨fun t done s2 he => ?_, fun t m s2 he => ?_,
          fun t s2 he => ?_⟩ <;>
          simp only [bind_ok_apply h1, bind_ok_apply hc2,
            bind_ok_apply h3, bind_stuck_apply h4] at he
        · simp at he
        · simp at he
        · simp only [Prod.mk.injEq] at he
          obtain ⟨h2, -⟩ := he
          right
          subst h2
          have ht4 : submitsOf t4 = [] := by
            have hf := submitFree_checkRetry
              (if layerDoneOf err = true then r else r + 1) s3
            rw [h4] at hf
            exact hf
          simp [submitsOf_append, ht1, htc, ht3, ht4]
      | abort m0 =>
        obtain ⟨hm0, hgt⟩ := checkRetry_abort _ s3 t4 m0 s4 h4
        refine ⟨fun t done s2 he => ?_, fun t m s2 he => ?_,
          fun t s2 he => ?_⟩ <;>
          simp only [bind_ok_apply h1, bind_ok_apply hc2,
            bind_ok_apply h3, bind_abort_apply h4] at he
        · simp at he
        · simp only [Prod.mk.injEq] at he
          obtain ⟨h2, hm, -⟩ := he
          constructor
          · subst h2
            have ht4 : submitsOf t4 = [] := by
              have hf := submitFree_checkRetry
                (if layerDoneOf err = true then r else r + 1) s3
              rw [h4] at hf
              exact hf
            simp [submitsOf_append, ht1, htc, ht3, ht4]
          · intro hmr
            omega
        · simp at he
      | ok u2 =>
        obtain ⟨hle, ht4, hs4⟩ := checkRetry_ok _ s3 t4 u2 s4 h4
        refine ⟨fun t done s2 he => ?_, fun t m s2 he => ?_,
          fun t s2 he => ?_⟩ <;>
          simp only [bind_ok_apply h1, bind_ok_apply hc2,
            bind_ok_apply h3, bind_ok_apply h4, pure_apply] at he
        · simp only [Prod.mk.injEq] at he
          obtain ⟨h2, hdone, -⟩ := he
          rw [Res.ok.injEq] at hdone
          constructor
          · subst h2
            subst ht4
            simp [submitsOf_append, ht1, htc, ht3]
          · intro hdf
            rw [hdf] at hdone
            rw [hdone] at hle
            simpa using hle
        · simp at he
        · simp at he

/-- The submission counters of one run of the retry loop form the
contiguous range starting at the initial retry counter: every attempt that
leaves the layer not done increments the counter by exactly one before the
next submission. -/
theorem layerLoop_submits_range (i : Nat) (l : Layer) :
    ∀ (fuel r : Nat) (s : St), ∃ n,
      submitsOf ((layerLoop i l fuel r) s).1 = List.range' r n := by
  intro fuel
  induction fuel with
  | zero => intro r s; exact ⟨0, rfl⟩
  | succ fuel ih =>
    intro r s
    obtain ⟨hok, habt, hstk⟩ := layerAttempt_spec i l r s
    rw [layerLoop_succ]
    rcases ha : layerAttempt i l r s with ⟨ta, ra, sa⟩
    cases ra with
    | stuck =>
      rw [bind_stuck_apply ha]
      rcases hstk ta sa ha with h | h
      · exact ⟨0, h⟩
      · exact ⟨1, by simpa [List.range'] using h⟩
    | abort m =>
      rw [bind_abort_apply ha]
      exact ⟨1, by simpa [List.range'] using (habt ta m sa ha).1⟩
    | ok done =>
      have hta := (hok ta done sa ha).1
      cases done with
      | true =>
        rw [bind_ok_apply ha]
        simp only [if_true]
        refine ⟨1, ?_⟩
        simp [submitsOf_append, pure_apply, hta, List.range']
      | false =>
        rw [bind_ok_apply ha]
        simp only [Bool.false_eq_true, if_false]
        obtain ⟨n, hn⟩ := ih (r + 1) sa
        refine ⟨n + 1, ?_⟩
        simp [submitsOf_append, hta, hn, List.range']

/-- The retry loop started at a counter within the bound performs at most
11 minus that counter submissions: the retry bound cuts the loop off. -/
theorem layerLoop_submits_bound (i : Nat) (l : Layer) :
    ∀ (fuel r : Nat) (s : St), r ≤ 10 →
      (submitsOf ((layerLoop i l fuel r) s).1).length ≤ 11 - r := by
  intro fuel
  induction fuel with
  | zero => intro r s hr; rw [layerLoop_zero]; simp [submitsOf]
  | succ fuel ih =>
    intro r s hr
    obtain ⟨hok, habt, hstk⟩ := layerAttempt_spec i l r s
    rw [layerLoop_succ]
    rcases ha : layerAttempt i l r s with ⟨ta, ra, sa⟩
    cases ra with
    | stuck =>
      rw [bind_stuck_apply ha]
      rcases hstk ta sa ha with h | h
      · simp [h]
      · simp [h]
        omega
    | abort m =>
      rw [bind_abort_apply ha]
      simp [(habt ta m sa ha).1]
      omega
    | ok done =>
      have hta := (hok ta done sa ha).1
      cases done with
      | true =>
        rw [bind_ok_apply ha]
        simp only [if_true]
        simp [submitsOf_append, pure_apply, hta]
        omega
      | false =>
        have hr1 := (hok ta false sa ha).2 rfl
        rw [bind_ok_apply ha]
        simp only [Bool.false_eq_true, if_false]
        have := ih (r + 1) sa (by omega)
        simp [submitsOf_append, hta]
        omega

/-- A retry bound abort of the retry loop started at a counter within the
bound happens after exactly 11 minus that counter failed submissions: from
a fresh layer, the abort comes exactly when the eleventh attempt has failed
and the counter has been incremented past 10. -/
theorem layerLoop_abort_count (i : Nat) (l : Layer) :
    ∀ (fuel r : Nat) (s : St) (t : Trace) (s2 : St), r ≤ 10 →
      layerLoop i l fuel r s = (t, Res.abort retryFullMsg, s2) →
      submitsOf t = List.range' r (11 - r) := by
  intro fuel
  induction fuel with
  | zero =>
    intro r s t s2 hr h
    rw [layerLoop_zero] at h
    simp at h
  | succ fuel ih =>
    intro r s t s2 hr h
    obtain ⟨hok, habt, hstk⟩ := layerAttempt_spec i l r s
    rw [layerLoop_succ] at h
    rcases ha : layerAttempt i l r s with ⟨ta, ra, sa⟩
    cases ra with
    | stuck =>
      rw [bind_stuck_apply ha] at h
      simp at h
    | abort m =>
      rw [bind_abort_apply ha] at h
      simp only [Prod.mk.injEq] at h
      obtain ⟨h2, hm, -⟩ := h
      rw [Res.abort.injEq] at hm
      obtain ⟨hta, hge⟩ := habt ta m sa ha
      have hr10 : r = 10 := by
        have := hge hm
        omega
      subst h2
      rw [hta, hr10]
      rfl
    | ok done =>
      have hta := (hok ta done sa ha).1
      cases done with
      | true =>
        rw [bind_ok_apply ha] at h
        simp only [if_true] at h
        rw [pure_apply] at h
        simp at h
      | false =>
        have hr1 := (hok ta false sa ha).2 rfl
        rw [bind_ok_apply ha] at h
        simp only [Bool.false_eq_true, if_false] at h
        rcases hrec : (layerLoop i l fuel (r + 1)) sa with ⟨tr, rr, sr⟩
        rw [hrec] at h
        simp only [Prod.mk.injEq] at h
        obtain ⟨h2, hm, -⟩ := h
        cases rr with
        | ok a => simp at hm
        | stuck => simp at hm
        | abort m0 =>
          rw [Res.abort.injEq] at hm
          subst hm
          have hrng := ih (r + 1) sa tr sr (by omega) hrec
          subst h2
          rw [submitsOf_append, hta, hrng]
          have h11 : 11 - r = (11 - (r + 1)) + 1 := by omega
          rw [h11]
          simp [List.range']

/-- Sequencing a submission-free step in front of a computation whose
submission counters form an initial range preserves that shape. -/
theorem submits_range_bind {α β : Type} {x : M α} {f : α → M β}
    (hx : SubmitFree x)
    (hf : ∀ a s, ∃ n, submitsOf ((f a) s).1 = List.range n) (s : St) :
    ∃ n, submitsOf ((x >>= f) s).1 = List.range n := by
  rcases hcx : x s with ⟨t, r, s1⟩
  have hxs := hx s
  rw [hcx] at hxs
  cases r with
  | ok a =>
    rw [bind_ok_apply hcx]
    obtain ⟨n, hn⟩ := hf a s1
    exact ⟨n, by simp [submitsOf_append, hxs, hn]⟩
  | abort m => rw [bind_abort_apply hcx]; exact ⟨0, hxs⟩
  | stuck => rw [bind_stuck_apply hcx]; exact ⟨0, hxs⟩

/-- The submission counters of one full layer body form an initial range:
the retry loop is entered with a fresh counter starting at 0. -/
theorem runOneLayer_submits (fuel numLayers index : Nat) (layer : Layer) :
    ∀ s, ∃ n,
      submitsOf ((runOneLayer fuel numLayers index layer) s).1 =
        List.range n := by
  intro s
  unfold runOneLayer
  refine submits_range_bind (submitFree_emit _ (by rfl)) (fun _ s => ?_) s
  refine submits_range_bind (submitFree_emit _ (by rfl)) (fun _ s => ?_) s
  refine submits_range_bind (submitFree_logM _) (fun _ s => ?_) s
  refine submits_range_bind (submitFree_wait_for_beam_power_low fuel)
    (fun _ s => ?_) s
  refine submits_range_bind (submitFree_logM _) (fun _ s => ?_) s
  refine submits_range_bind submitFree_recoat_cycle (fun rc s => ?_) s
  refine submits_range_bind (submitFree_fatalUnless rc _) (fun _ s => ?_) s
  refine submits_range_bind submitFree_beamCheckAfterRecoat
    (fun _ s => ?_) s
  obtain ⟨n, hn⟩ := layerLoop_submits_range index layer fuel 0 s
  exact ⟨n, by rw [hn, ← List.range_eq_range']⟩

/-- The submission counters of the whole layer iteration are a
concatenation of initial ranges, one per processed layer: each layer starts
with retry counter 0, the counter grows by single increments within a
layer, and it is taken back to 0 exactly when a new layer begins. -/
theorem runLayers_submits (fuel numLayers : Nat) :
    ∀ (layers : List Layer) (index : Nat) (s : St), ∃ ns : List Nat,
      submitsOf ((runLayers fuel numLayers layers index) s).1 =
        (ns.map List.range).flatten := by
  intro layers
  induction layers with
  | nil => intro index s; exact ⟨[], rfl⟩
  | cons layer rest ih =>
    intro index s
    rw [runLayers_cons]
    rcases h1 : runOneLayer fuel numLayers index layer s with ⟨t1, r1, s1⟩
    obtain ⟨n, hn⟩ := runOneLayer_submits fuel numLayers index layer s
    rw [h1] at hn
    cases r1 with
    | ok a =>
      rw [bind_ok_apply h1]
      obtain ⟨ns, hns⟩ := ih (index + 1) s1
      exact ⟨n :: ns, by simp [submitsOf_append, hn, hns]⟩
    | abort m =>
      rw [bind_abort_apply h1]
      exact ⟨[n], by simp [hn]⟩
    | stuck =>
      rw [bind_stuck_apply h1]
      exact ⟨[n], by simp [hn]⟩

/-- Whenever the retry loop aborts, the abort event is the last event of
its trace: nothing at all, in particular no exposure submission, follows
the raise. -/
theorem layerLoop_abort_last (i : Nat) (l : Layer) (fuel r : Nat) (s : St)
    (t : Trace) (m : String) (s2 : St)
    (h : layerLoop i l fuel r s = (t, Res.abort m, s2)) :
    ∃ t0, t = t0 ++ [Ev.raiseAbort m] ∧ ∀ m2, Ev.raiseAbort m2 ∉ t0 := by
  have hf := fatal_layerLoop i l fuel r s
  rw [h] at hf
  obtain ⟨t0, ht, hnr, -, -⟩ := hf
  exact ⟨t0, ht, fun m2 => hnr m2⟩

/-- C1: per layer, the retry counter starts at the value the loop is
entered with and is incremented by exactly one after each failed attempt
(the counters carried by successive submissions form a contiguous range);
from a fresh layer at most 11 submissions ever happen; an abort with the
retry message (the source string is Build Error: Maximum retry count
exceeded!) happens exactly after the eleventh failed submission, when the
counter has been incremented past maxRetryCount = 10; and after any abort
event nothing more is emitted, in particular no further exposure is
submitted for that layer. -/
theorem retry_bound_spec :
    (∀ (i : Nat) (l : Layer) (fuel r : Nat) (s : St), ∃ n,
      submitsOf ((layerLoop i l fuel r) s).1 = List.range' r n) ∧
    (∀ (i : Nat) (l : Layer) (fuel : Nat) (s : St),
      (submitsOf ((layerLoop i l fuel 0) s).1).length ≤ 11) ∧
    (∀ (i : Nat) (l : Layer) (fuel : Nat) (s : St) (t : Trace) (s2 : St),
      layerLoop i l fuel 0 s = (t, Res.abort retryFullMsg, s2) →
      submitsOf t = List.range 11) ∧
    (∀ (i : Nat) (l : Layer) (fuel r : Nat) (s : St) (t : Trace)
        (m : String) (s2 : St),
      layerLoop i l fuel r s = (t, Res.abort m, s2) →
      ∃ t0, t = t0 ++ [Ev.raiseAbort m] ∧ ∀ m2, Ev.raiseAbort m2 ∉ t0) := by
  refine ⟨layerLoop_submits_range, ?_, ?_, layerLoop_abort_last⟩
  · intro i l fuel s
    have := layerLoop_submits_bound i l fuel 0 s (by omega)
    omega
  · intro i l fuel s t s2 h
    have := layerLoop_abort_count i l fuel 0 s t s2 (by omega) h
    rw [this, ← List.range_eq_range']

/-- Script driving eleven consecutive jump safe arc trips with successful
recoveries, enough for the retry bound abort. -/
def retryScript : Script :=
  { beamIsOn := [], restartHV := [], hvCurrent := [], temperature := [],
    clearQueue := List.replicate 12 true, recoat := [],
    exposure := List.replicate 11 1,
    restartArc := List.replicate 11 true,
    jsReps := List.replicate 11 0, hbReps := List.replicate 11 0 }

/-- Initial state for the retry bound witness run. -/
def retrySt : St := { sc := retryScript, time := 0, npl := none }

/-- Witness for C1 at a concrete run of eleven failed attempts. -/
theorem retry_bound_spec_witness :
    ∃ t s2, layerLoop 1 ⟨none, none, [], none⟩ 12 0 retrySt =
      (t, Res.abort retryFullMsg, s2) ∧
      submitsOf t = List.range 11 ∧
      ∃ t0, t = t0 ++ [Ev.raiseAbort retryFullMsg] ∧
        ∀ m2, Ev.raiseAbort m2 ∉ t0 := by
  rcases hev : layerLoop 1 ⟨none, none, [], none⟩ 12 0 retrySt with ⟨t, r, s2⟩
  have hr : r = Res.abort retryFullMsg := by
    have hp : (layerLoop 1 ⟨none, none, [], none⟩ 12 0 retrySt).2.1 =
        Res.abort retryFullMsg := by decide
    rw [hev] at hp
    exact hp
  subst hr
  exact ⟨t, s2, rfl,
    retry_bound_spec.2.2.1 1 ⟨none, none, [], none⟩ 12 retrySt t s2 hev,
    retry_bound_spec.2.2.2 1 ⟨none, none, [], none⟩ 12 0 retrySt t
      retryFullMsg s2 hev⟩

/-- C2: an exposure attempt classified as a heat balance arc trip (machine
result code 4) marks the layer done: the retry loop returns normally after
that single attempt even when entered at retry counter 10 (so the counter
was not incremented, since an increment would have tripped the retry bound
abort), while the exposure queue is still cleared and arc trip recovery is
invoked with fresh powder flag false; and across a whole build the
submission counters are a concatenation of ranges each starting at 0: the
counter of every layer starts at 0, never resets within a layer, and is
back at 0 exactly when the next layer begins after the previous one
completed. -/
theorem heat_balance_trip_spec :
    (∀ (i : Nat) (l : Layer) (fuel r : Nat) (s : St) (j : Nat)
        (js : List Nat) (hb : Nat) (hbs : List Nat) (es : List Nat)
        (c : Bool) (cs : List Bool) (as : List Bool),
      s.sc.jsReps = j :: js → s.sc.hbReps = hb :: hbs →
      s.sc.exposure = 4 :: es → s.sc.clearQueue = c :: cs →
      s.sc.restartArc = true :: as → r ≤ 10 →
      ((layerLoop i l (fuel + 1) r) s).2.1 = Res.ok () ∧
      submitsOf ((layerLoop i l (fuel + 1) r) s).1 = [r] ∧
      Ev.clearQueue ∈ ((layerLoop i l (fuel + 1) r) s).1 ∧
      Ev.restartArcEv (some false) true ∈
        ((layerLoop i l (fuel + 1) r) s).1) ∧
    (∀ (fuel numLayers : Nat) (layers : List Layer) (index : Nat) (s : St),
      ∃ ns : List Nat,
        submitsOf ((runLayers fuel numLayers layers index) s).1 =
          (ns.map List.range).flatten) := by
  constructor
  · intro i l fuel r s j js hb hbs es c cs as hjs hhb hex hc ha hr
    have hnr : ¬(10 < r) := by omega
    rw [layerLoop_succ]
    simp [layerAttempt, submitStep, classifyStep, recoverStep, checkRetry,
      fatalUnless, clear_exposure_queue, restart_after_arc_trip, getNpl,
      setNpl, popJsReps, popHbReps, popExposure, popClearQueue,
      popRestartArc, emit, logM, bind_apply, pure_apply, layerDoneOf,
      hjs, hhb, hex, hc, ha, hnr, submitsOf, submitRetryOf]
  · intro fuel numLayers layers index s
    exact runLayers_submits fuel numLayers layers index s

/-- State whose script answers one exposure attempt with the heat balance
arc trip code and a successful recovery. -/
def c2St : St :=
  ⟨⟨[], [], [], [], [true], [], [4], [true], [0], [0]⟩, 0, none⟩

/-- Witness for C2 at a concrete heat balance trip from retry counter 10. -/
theorem heat_balance_trip_spec_witness :
    ((layerLoop 1 ⟨none, none, [], none⟩ 1 10) c2St).2.1 = Res.ok () ∧
    submitsOf ((layerLoop 1 ⟨none, none, [], none⟩ 1 10) c2St).1 = [10] ∧
    Ev.restartArcEv (some false) true ∈
      ((layerLoop 1 ⟨none, none, [], none⟩ 1 10) c2St).1 ∧
    ∃ ns : List Nat,
      submitsOf ((runLayers 1 1 [⟨none, none, [], none⟩] 1) c2St).1 =
        (ns.map List.range).flatten := by
  obtain ⟨h1, h2, -, h4⟩ := heat_balance_trip_spec.1 1
    ⟨none, none, [], none⟩ 0 10 c2St 0 [] 0 [] [] true [] []
    rfl rfl rfl rfl rfl (by omega)
  exact ⟨h1, h2, h4,
    heat_balance_trip_spec.2 1 1 [⟨none, none, [], none⟩] 1 c2St⟩

/-- An event of the first computation of a sequence stays in the trace of
the sequence. -/
theorem mem_bind_left {α β : Type} {x : M α} {f : α → M β} {s : St}
    {e : Ev} (h : e ∈ (x s).1) : e ∈ ((x >>= f) s).1 := by
  rcases hx : x s with ⟨t, r, s1⟩
  rw [hx] at h
  cases r with
  | ok a =>
    rw [bind_ok_apply hx]
    exact List.mem_append_left _ h
  | abort m => rw [bind_abort_apply hx]; exact h
  | stuck => rw [bind_stuck_apply hx]; exact h

/-- An event of the continuation of a sequence whose first computation
returned normally stays in the trace of the sequence. -/
theorem mem_bind_right {α β : Type} {x : M α} {f : α → M β} {s s1 : St}
    {t : Trace} {a : α} {e : Ev} (hx : x s = (t, Res.ok a, s1))
    (h : e ∈ ((f a) s1).1) : e ∈ ((x >>= f) s).1 := by
  rw [bind_ok_apply hx]
  exact List.mem_append_right _ h

/-- C3: on every faulted exposure attempt with machine result code 1, 2, 3
or 4, the fresh powder flag passed to arc trip recovery is true exactly for
the melt trip code 3, and false for the jump safe, spatter safe and heat
balance trip codes 1, 2 and 4. -/
theorem fresh_powder_flag_spec :
    ∀ (i : Nat) (l : Layer) (fuel r : Nat) (s : St) (j : Nat)
      (js : List Nat) (hb : Nat) (hbs : List Nat) (err : Nat)
      (es : List Nat) (c : Bool) (cs : List Bool) (a : Bool)
      (as : List Bool),
      s.sc.jsReps = j :: js → s.sc.hbReps = hb :: hbs →
      s.sc.exposure = err :: es → s.sc.clearQueue = c :: cs →
      s.sc.restartArc = a :: as →
      (err = 1 ∨ err = 2 ∨ err = 3 ∨ err = 4) →
      Ev.restartArcEv (some (decide (err = 3))) a ∈
        ((layerLoop i l (fuel + 1) r) s).1 := by
  intro i l fuel r s j js hb hbs err es c cs a as hjs hhb hex hc ha herr4
  rw [layerLoop_succ]
  apply mem_bind_left
  show Ev.restartArcEv (some (decide (err = 3))) a ∈
    ((layerAttempt i l r) s).1
  unfold layerAttempt
  apply mem_bind_right (submitStep_apply i l r s j js hb hbs err es
    hjs hhb hex)
  apply mem_bind_right (classifyStep_apply err
    { s with sc := { s.sc with
        jsReps := js, hbReps := hbs, exposure := es } })
  apply mem_bind_left
  have hmem := recoverStep_mem err
    { s with
      sc := { s.sc with jsReps := js, hbReps := hbs, exposure := es }
      npl := nplAfter err s.npl }
    (by rcases herr4 with rfl | rfl | rfl | rfl <;> decide)
    c cs (by simp [hc]) a as (by simp [ha])
  have hnpl : nplAfter err s.npl = some (decide (err = 3)) := by
    rcases herr4 with rfl | rfl | rfl | rfl <;> rfl
  rw [show (some (decide (err = 3)) : Option Bool) = nplAfter err s.npl from
    hnpl.symm]
  exact hmem.2

/-- State whose script answers one exposure attempt with the melt trip
code and a successful recovery. -/
def c3St : St :=
  ⟨⟨[], [], [], [], [true], [], [3], [true], [0], [0]⟩, 0, none⟩

/-- Witness for C3 at a concrete melt trip: the flag passed to recovery is
true. -/
theorem fresh_powder_flag_spec_witness :
    Ev.restartArcEv (some true) true ∈
      ((layerLoop 1 ⟨none, none, [], none⟩ 1 0) c3St).1 :=
  fresh_powder_flag_spec 1 ⟨none, none, [], none⟩ 0 0 c3St 0 [] 0 [] 3 []
    true [] true [] rfl rfl rfl rfl rfl (by decide)

/-- C9 amended: whenever the controller aborts the build, the abort event
is the last event of the run (nothing follows the raise), a queue clear
precedes it, and for every fatal path except the beam power low timeout a
telemetry publish of the abort message precedes it; the beam power low
timeout clears the queue but raises without publishing its message. -/
theorem fatal_paths_amended :
    ∀ (fuel : Nat) (info : BuildInfo) (s : St) (t : Trace) (m : String)
      (s2 : St),
      runBuild fuel info s = (t, Res.abort m, s2) →
      ∃ t0, t = t0 ++ [Ev.raiseAbort m] ∧ (∀ m2, Ev.raiseAbort m2 ∉ t0) ∧
        Ev.clearQueue ∈ t0 ∧ (m ≠ beamLowMsg → Ev.publish m ∈ t0) := by
  intro fuel info s t m s2 h
  have hf := fatal_runBuild fuel info s
  rw [h] at hf
  obtain ⟨t0, ht, hnr, hcl, hpub⟩ := hf
  exact ⟨t0, ht, fun m2 => hnr m2, hcl, hpub⟩

/-- State whose script makes beam ignition fail at build start. -/
def c9WitSt : St :=
  ⟨⟨[false], [false], [], [], [true], [], [], [], [], []⟩, 0, none⟩

/-- Build plan used for the C9 runs. -/
def c9Info : BuildInfo := ⟨⟨"obp/sh.obp", 1000, 10⟩, []⟩

/-- Witness for the amended C9 at a concrete beam ignition failure. -/
theorem fatal_paths_amended_witness :
    ∃ t s2, runBuild 1 c9Info c9WitSt =
      (t, Res.abort "Build Error: Failed to start beam", s2) ∧
      ∃ t0, t = t0 ++ [Ev.raiseAbort "Build Error: Failed to start beam"] ∧
        (∀ m2, Ev.raiseAbort m2 ∉ t0) ∧ Ev.clearQueue ∈ t0 ∧
        ("Build Error: Failed to start beam" ≠ beamLowMsg →
          Ev.publish "Build Error: Failed to start beam" ∈ t0) := by
  rcases hev : runBuild 1 c9Info c9WitSt with ⟨t, r, s2⟩
  have hr : r = Res.abort "Build Error: Failed to start beam" := by
    have hp : (runBuild 1 c9Info c9WitSt).2.1 =
        Res.abort "Build Error: Failed to start beam" := by decide
    rw [hev] at hp
    exact hp
  subst hr
  exact ⟨t, s2, rfl,
    fatal_paths_amended 1 c9Info c9WitSt t _ s2 hev⟩

/-- Script driving a full run into the beam power low timeout at the first
layer: start heat succeeds immediately, then the high voltage current never
drops. -/
def c9CexScript : Script :=
  { beamIsOn := [true, true], restartHV := [],
    hvCurrent := List.replicate 40 (some 5),
    temperature := [some 1000], clearQueue := [true, true], recoat := [],
    exposure := [], restartArc := [], jsReps := [], hbReps := [] }

/-- Build plan for the beam power low counterexample run. -/
def c9CexInfo : BuildInfo :=
  ⟨⟨"obp/sh.obp", 1000, 10⟩, [⟨none, none, [], none⟩]⟩

/-- Counterexample to C9 as stated: this concrete run aborts on the beam
power low timeout after a queue clear, but no telemetry publish of the
abort message occurs anywhere in the whole trace: the beam power low fatal
path raises without surfacing a message to telemetry. -/
theorem beam_power_low_no_publish_counterexample :
    (runBuild 40 c9CexInfo ⟨c9CexScript, 0, none⟩).2.1 =
      Res.abort beamLowMsg ∧
    Ev.publish beamLowMsg ∉ (runBuild 40 c9CexInfo ⟨c9CexScript, 0, none⟩).1 ∧
    Ev.clearQueue ∈ (runBuild 40 c9CexInfo ⟨c9CexScript, 0, none⟩).1 := by
  refine ⟨by decide, by decide, by decide⟩

end ObpCreator
